import Mathlib

/-!
Verification of the `qb` SQL query-builder package (Serajian/go-query-builder).

The development shallowly embeds the current (guarded / ON CONFLICT / RETURNING
capable) variant of the package: the `QueryBuilder` struct from `const.go`, the
fluent configuration methods, and the rendering engine (`Build`, `buildSelect`,
`buildInsert`, `buildUpdate`, `buildDelete`, `buildConditions`, `placeholder`,
`renderOnConflict`, `sliceToInterfaces`).

Modelling choices:
- Go `interface{}` values become the inductive `GoValue`; Go slices/arrays are
  `GoValue.vList`, `[]byte` is `GoValue.vBytes`, `RawExpr` is `GoValue.vRaw`.
- Go maps (`map[string]interface{}`) become association lists
  `List (String × GoValue)`; `Set`/`SetUpdate`/`OnConflictSet` perform
  update-or-append, so keys stay unique along the API, and the renderer only
  reads a map through its key list (sorted with `sortStrings`, mirroring
  `sort.Strings`) and key lookup (`lookupD`, mirroring `m[k]`).
- `QueryType` is a Go `int`: an `Int` with named constants `SELECTq = 0`,
  `INSERTq = 1`, `UPDATEq = 2`, `DELETEq = 3` (`SELECT` is `iota`, i.e. the
  zero value).
- The renderer's mutation of `qb.Parameters` / `qb.ParamIndex` is threaded as
  an explicit `RState`; `Build` zeroes both on entry exactly as the source does.
- `fmt.Sprintf("$%d", n)` / `"%d"` decimal formatting is `natToStr` / `intToStr`
  (base-10, fuel-structured so that it computes by kernel reduction).
-/

namespace QB

/-- Go `interface{}` values as they occur in the package: scalars, strings,
booleans, nil, `[]byte`, generic slices/arrays, and the package's `RawExpr`. -/
inductive GoValue where
  | vInt (n : Int)
  | vStr (s : String)
  | vBool (b : Bool)
  | vNull
  | vBytes (bs : List Nat)
  | vList (vs : List GoValue)
  | vRaw (s : String)

/-- The `Operator` string constants of `const.go`. -/
inductive Operator where
  | EQ | NEQ | GT | GTE | LT | LTE
  | INOP | NINOP | NULLOP | NOTNULLOP | LIKE | NOTLIKE
deriving DecidableEq, Repr

/-- The text of each operator constant (`EQ = "="`, ..., `NIN = "NOT IN"`). -/
def opText : Operator → String
  | .EQ => "="
  | .NEQ => "!="
  | .GT => ">"
  | .GTE => ">="
  | .LT => "<"
  | .LTE => "<="
  | .INOP => "IN"
  | .NINOP => "NOT IN"
  | .NULLOP => "IS NULL"
  | .NOTNULLOP => "IS NOT NULL"
  | .LIKE => "LIKE"
  | .NOTLIKE => "NOT LIKE"

/-- The `JoinType` string constants of `const.go`. -/
inductive JoinType where
  | INNER | LEFT | RIGHT | FULL
deriving DecidableEq, Repr

/-- Text of each join type constant. -/
def joinTypeText : JoinType → String
  | .INNER => "INNER JOIN"
  | .LEFT => "LEFT JOIN"
  | .RIGHT => "RIGHT JOIN"
  | .FULL => "FULL OUTER JOIN"

/-- `Condition` struct: column, operator, value, combinator ("AND"/"OR"). -/
structure Condition where
  Column : String
  Op : Operator
  Value : GoValue
  Logic : String

/-- `Join` struct: join type, table and verbatim ON condition. -/
structure Join where
  JType : JoinType
  Table : String
  Condition : String
deriving DecidableEq, Repr

/-- `OrderBy` struct: column and direction. -/
structure OrderBy where
  Column : String
  Desc : Bool
deriving DecidableEq, Repr

/-- `PlaceholderStyle`: `QuestionMark` (`?`) or `DollarN` (`$1,$2,...`). -/
inductive PlaceholderStyle where
  | QuestionMark | DollarN
deriving DecidableEq, Repr

/-- Go `QueryType` constants (`SELECT = iota`, so `SELECT` is the zero value). -/
def SELECTq : Int := 0

/-- `INSERT` query type constant. -/
def INSERTq : Int := 1

/-- `UPDATE` query type constant. -/
def UPDATEq : Int := 2

/-- `DELETE` query type constant. -/
def DELETEq : Int := 3

/-- The `QueryBuilder` struct of `const.go` (current, guarded variant).
Go maps are association lists; all other fields are as in the source. -/
structure QueryBuilder where
  QueryType : Int
  Table : String
  Columns : List String
  Conditions : List Condition
  Joins : List Join
  GroupByColumns : List String
  HavingConditions : List Condition
  OrderByArr : List OrderBy
  LimitInt : Int
  OffsetInt : Int
  InsertData : List (String × GoValue)
  UpdateData : List (String × GoValue)
  Parameters : List GoValue
  PhStyle : PlaceholderStyle
  ParamIndex : Nat
  ReturningColumns : List String
  GuardWrites : Bool
  ConflictColumns : List String
  ConflictConstraint : String
  ConflictDoNothing : Bool
  ConflictUpdateSet : List (String × GoValue)

/-- Decimal digit character: `digitChar n` is the character for digit `n`. -/
def digitChar (n : Nat) : Char := Char.ofNat (48 + n)

/-- Decimal digit list of a natural number, fuel-structured so it reduces in
the kernel. With fuel above `n` this is plain base-10 printing. -/
def natDigitsGo (fuel : Nat) (n : Nat) : List Char :=
  match fuel with
  | 0 => []
  | fuel' + 1 =>
    if n < 10 then [digitChar n]
    else natDigitsGo fuel' (n / 10) ++ [digitChar (n % 10)]

/-- Base-10 rendering of a natural number (the `%d` of `fmt.Sprintf`). -/
def natToStr (n : Nat) : String := String.mk (natDigitsGo (n + 1) n)

/-- Base-10 rendering of a Go `int` (the `%d` of `fmt.Sprintf`). -/
def intToStr (i : Int) : String :=
  if i < 0 then "-" ++ natToStr i.natAbs else natToStr i.toNat

/-- `strings.Join(parts, sep)`. -/
def strJoin (sep : String) : List String → String
  | [] => ""
  | [x] => x
  | x :: y :: rest => x ++ sep ++ strJoin sep (y :: rest)

/-- Byte-wise string comparison used by `sort.Strings` (lexicographic over the
character sequences; for the ASCII identifiers of the package this coincides
with Go's byte order). -/
def strLeAux : List Char → List Char → Bool
  | [], _ => true
  | _ :: _, [] => false
  | a :: as, b :: bs =>
    if a.toNat < b.toNat then true
    else if a.toNat = b.toNat then strLeAux as bs
    else false

/-- Lexicographic `≤` on strings (Go's `<=` for `sort.Strings`). -/
def strLe (a b : String) : Bool := strLeAux a.data b.data

/-- Insert a string into an already sorted list (helper of `sortStrings`). -/
def insertSorted (x : String) : List String → List String
  | [] => [x]
  | y :: ys => if strLe x y then x :: y :: ys else y :: insertSorted x ys

/-- `sort.Strings`: ascending lexicographic sort. -/
def sortStrings : List String → List String
  | [] => []
  | x :: xs => insertSorted x (sortStrings xs)

/-- The sorted key list of a column-assignment map (`for k := range m` followed
by `sort.Strings`; map iteration order is irrelevant after sorting). -/
def sortedKeys (m : List (String × GoValue)) : List String :=
  sortStrings (m.map Prod.fst)

/-- Go map lookup `m[k]` for keys known to be present (first match; returns the
zero `interface{}` value on absent keys, which the renderer never relies on). -/
def lookupD : List (String × GoValue) → String → GoValue
  | [], _ => GoValue.vNull
  | (k', v) :: rest, k => if k' = k then v else lookupD rest k

/-- Go map update-or-insert `m[k] = v` (replaces the binding if present,
appends otherwise), used by `Set`, `SetUpdate` and `OnConflictSet`. -/
def assocSet : List (String × GoValue) → String → GoValue → List (String × GoValue)
  | [], k, v => [(k, v)]
  | (k', v') :: rest, k, v =>
    if k' = k then (k, v) :: rest else (k', v') :: assocSet rest k v

/-- `sliceToInterfaces`: slices/arrays other than `[]byte` expand to their
elements, `[]byte` becomes a single-element list holding the original value,
anything else yields `none` (Go's `(nil, false)`). -/
def sliceToInterfaces : GoValue → Option (List GoValue)
  | .vList vs => some vs
  | .vBytes bs => some [.vBytes bs]
  | _ => none

/-- The renderer's mutable state: `qb.ParamIndex` and `qb.Parameters`. -/
structure RState where
  paramIndex : Nat
  parameters : List GoValue

/-- `placeholder()`: DollarN increments the counter and prints `$<n>`;
any other style returns `?` without touching the counter. -/
def placeholder (style : PlaceholderStyle) (st : RState) : String × RState :=
  match style with
  | .DollarN =>
    ("$" ++ natToStr (st.paramIndex + 1), { st with paramIndex := st.paramIndex + 1 })
  | .QuestionMark => ("?", st)

/-- Append one value to `qb.Parameters`. -/
def pushParam (st : RState) (v : GoValue) : RState :=
  { st with parameters := st.parameters ++ [v] }

/-- The IN-list loop of `buildConditions`: one placeholder and one appended
parameter per element, in order; returns the placeholder texts. -/
def bindAll (style : PlaceholderStyle) (st : RState) : List GoValue → List String × RState
  | [] => ([], st)
  | v :: vs =>
    let (ph, st1) := placeholder style st
    let (phs, st2) := bindAll style (pushParam st1 v) vs
    (ph :: phs, st2)

/-- One iteration body of `buildConditions`: the `switch condition.Op` of the
source, producing this condition's text fragment and the updated state. -/
def condFragment (style : PlaceholderStyle) (st : RState) (c : Condition) : String × RState :=
  match c.Op with
  | .NULLOP => (c.Column ++ " " ++ opText c.Op, st)
  | .NOTNULLOP => (c.Column ++ " " ++ opText c.Op, st)
  | .INOP =>
    match sliceToInterfaces c.Value with
    | none => ("(1=0)", st)
    | some vs =>
      if vs.isEmpty then ("(1=0)", st)
      else
        let (phs, st1) := bindAll style st vs
        (c.Column ++ " " ++ opText c.Op ++ " (" ++ strJoin ", " phs ++ ")", st1)
  | .NINOP =>
    match sliceToInterfaces c.Value with
    | none => ("(1=1)", st)
    | some vs =>
      if vs.isEmpty then ("(1=1)", st)
      else
        let (phs, st1) := bindAll style st vs
        (c.Column ++ " " ++ opText c.Op ++ " (" ++ strJoin ", " phs ++ ")", st1)
  | _ =>
    let (ph, st1) := placeholder style st
    (c.Column ++ " " ++ opText c.Op ++ " " ++ ph, pushParam st1 c.Value)

/-- `buildConditions`: renders a condition list; every condition after the
first is preceded by a space, its combinator (`AND`/`OR`) and a space. -/
def buildConditionsAux (style : PlaceholderStyle) (st : RState) (first : Bool) :
    List Condition → String × RState
  | [] => ("", st)
  | c :: rest =>
    let pre := if first then "" else " " ++ c.Logic ++ " "
    let (frag, st1) := condFragment style st c
    let (tail, st2) := buildConditionsAux style st1 false rest
    (pre ++ frag ++ tail, st2)

/-- The join-clause loop of `buildSelect`. -/
def joinsStr : List Join → String
  | [] => ""
  | j :: rest =>
    " " ++ joinTypeText j.JType ++ " " ++ j.Table ++ " ON " ++ j.Condition ++ joinsStr rest

/-- One ORDER BY part: `col DESC` or `col ASC`. -/
def orderPart (o : OrderBy) : String :=
  if o.Desc then o.Column ++ " DESC" else o.Column ++ " ASC"

/-- `buildSelect`: SELECT, FROM, JOINs, WHERE, GROUP BY, HAVING, ORDER BY,
LIMIT, OFFSET, threading the parameter state through WHERE then HAVING. -/
def buildSelect (qb : QueryBuilder) (st : RState) : String × RState :=
  let s1 := "SELECT " ++ strJoin ", " qb.Columns
  let s2 := s1 ++ (if qb.Table = "" then "" else " FROM " ++ qb.Table)
  let s3 := s2 ++ joinsStr qb.Joins
  let (s4, st1) :=
    if qb.Conditions.isEmpty then (s3, st)
    else
      let (w, st') := buildConditionsAux qb.PhStyle st true qb.Conditions
      (s3 ++ " WHERE " ++ w, st')
  let s5 := s4 ++ (if qb.GroupByColumns.isEmpty then ""
                   else " GROUP BY " ++ strJoin ", " qb.GroupByColumns)
  let (s6, st2) :=
    if qb.HavingConditions.isEmpty then (s5, st1)
    else
      let (h, st') := buildConditionsAux qb.PhStyle st1 true qb.HavingConditions
      (s5 ++ " HAVING " ++ h, st')
  let s7 := s6 ++ (if qb.OrderByArr.isEmpty then ""
                   else " ORDER BY " ++ strJoin ", " (qb.OrderByArr.map orderPart))
  let s8 := s7 ++ (if 0 < qb.LimitInt then " LIMIT " ++ intToStr qb.LimitInt else "")
  let s9 := s8 ++ (if 0 < qb.OffsetInt then " OFFSET " ++ intToStr qb.OffsetInt else "")
  (s9, st2)

/-- The type assertion `val.(RawExpr)` of the source: `some` of the raw text
when the value is a `RawExpr`, `none` otherwise. -/
def asRaw : GoValue → Option String
  | .vRaw r => some r
  | _ => none

/-- The `DO UPDATE SET` loop of `renderOnConflict`: `RawExpr` values are
spliced verbatim with no binding, other values bind one placeholder each. -/
def conflictLoop (style : PlaceholderStyle) (f : String → GoValue) (st : RState) :
    List String → List String × RState
  | [] => ([], st)
  | k :: ks =>
    match asRaw (f k) with
    | some r =>
      let (ps, st') := conflictLoop style f st ks
      ((k ++ " = " ++ r) :: ps, st')
    | none =>
      let (ph, st1) := placeholder style st
      let (ps, st') := conflictLoop style f (pushParam st1 (f k)) ks
      ((k ++ " = " ++ ph) :: ps, st')

/-- `renderOnConflict`: DollarN only; renders the conflict target (constraint
name beats column list), then DO NOTHING, or DO UPDATE SET in sorted key
order. -/
def renderOnConflict (qb : QueryBuilder) (st : RState) : String × RState :=
  if qb.PhStyle ≠ PlaceholderStyle.DollarN then ("", st)
  else if qb.ConflictColumns.isEmpty ∧ qb.ConflictConstraint = "" ∧
          qb.ConflictDoNothing = false ∧ qb.ConflictUpdateSet.isEmpty then ("", st)
  else
    let s1 := " ON CONFLICT " ++
      (if qb.ConflictConstraint ≠ "" then "ON CONSTRAINT " ++ qb.ConflictConstraint
       else if ¬qb.ConflictColumns.isEmpty then
         "(" ++ strJoin ", " qb.ConflictColumns ++ ")"
       else "")
    if qb.ConflictDoNothing then (s1 ++ " DO NOTHING", st)
    else if ¬qb.ConflictUpdateSet.isEmpty then
      let ks := sortedKeys qb.ConflictUpdateSet
      let (parts, st1) := conflictLoop qb.PhStyle (lookupD qb.ConflictUpdateSet) st ks
      (s1 ++ " DO UPDATE SET " ++ strJoin ", " parts, st1)
    else (s1, st)

/-- `buildInsert`: empty payload renders ` DEFAULT VALUES` (DollarN, with ON
CONFLICT and RETURNING) or ` () VALUES ()` (QuestionMark, ignoring both);
otherwise sorted columns, one placeholder per column, then ON CONFLICT and
(DollarN-only) RETURNING. -/
def buildInsert (qb : QueryBuilder) (st : RState) : String × RState :=
  let base := "INSERT INTO " ++ qb.Table
  if qb.InsertData.isEmpty then
    if qb.PhStyle = PlaceholderStyle.DollarN then
      let s1 := base ++ " DEFAULT VALUES"
      let (cf, st1) := renderOnConflict qb st
      (s1 ++ cf ++ (if qb.ReturningColumns.isEmpty then ""
                    else " RETURNING " ++ strJoin ", " qb.ReturningColumns), st1)
    else (base ++ " () VALUES ()", st)
  else
    let columns := sortedKeys qb.InsertData
    let (phs, st1) := bindAll qb.PhStyle st (columns.map (lookupD qb.InsertData))
    let s1 := base ++ " (" ++ strJoin ", " columns ++ ") VALUES (" ++ strJoin ", " phs ++ ")"
    let (cf, st2) := renderOnConflict qb st1
    (s1 ++ cf ++
      (if qb.PhStyle = PlaceholderStyle.DollarN ∧ ¬qb.ReturningColumns.isEmpty then
        " RETURNING " ++ strJoin ", " qb.ReturningColumns
       else ""), st2)

/-- The SET loop of `buildUpdate`: `col = <placeholder>` per sorted key, one
parameter appended per key. -/
def setLoop (style : PlaceholderStyle) (f : String → GoValue) (st : RState) :
    List String → List String × RState
  | [] => ([], st)
  | k :: ks =>
    let (ph, st1) := placeholder style st
    let (ps, st') := setLoop style f (pushParam st1 (f k)) ks
    ((k ++ " = " ++ ph) :: ps, st')

/-- The guard clause appended to unconditioned UPDATE/DELETE when
`GuardWrites` is on (text exactly as in the source, including the typo). -/
def guardClause : String := " WHERE 1=0 /*guarded: mising WHERE */"

/-- `buildUpdate`: UPDATE/SET in sorted key order, then WHERE (or the guard
clause when no conditions and `GuardWrites`), then RETURNING. -/
def buildUpdate (qb : QueryBuilder) (st : RState) : String × RState :=
  let ks := sortedKeys qb.UpdateData
  let (parts, st1) := setLoop qb.PhStyle (lookupD qb.UpdateData) st ks
  let s1 := "UPDATE " ++ qb.Table ++ " SET " ++ strJoin ", " parts
  let (s2, st2) :=
    if ¬qb.Conditions.isEmpty then
      let (w, st') := buildConditionsAux qb.PhStyle st1 true qb.Conditions
      (s1 ++ " WHERE " ++ w, st')
    else if qb.GuardWrites then (s1 ++ guardClause, st1)
    else (s1, st1)
  (s2 ++ (if qb.ReturningColumns.isEmpty then ""
          else " RETURNING " ++ strJoin ", " qb.ReturningColumns), st2)

/-- `buildDelete`: DELETE FROM, then WHERE (or the guard clause), then
RETURNING. -/
def buildDelete (qb : QueryBuilder) (st : RState) : String × RState :=
  let s1 := "DELETE FROM " ++ qb.Table
  let (s2, st2) :=
    if ¬qb.Conditions.isEmpty then
      let (w, st') := buildConditionsAux qb.PhStyle st true qb.Conditions
      (s1 ++ " WHERE " ++ w, st')
    else if qb.GuardWrites then (s1 ++ guardClause, st)
    else (s1, st)
  (s2 ++ (if qb.ReturningColumns.isEmpty then ""
          else " RETURNING " ++ strJoin ", " qb.ReturningColumns), st2)

/-- `Build` up to and including the dispatch: resets parameters and the
placeholder counter, then renders according to `QueryType`; unknown types
yield empty text and no parameters. Returns the final renderer state. -/
def BuildSt (qb : QueryBuilder) : String × RState :=
  let st0 : RState := ⟨0, []⟩
  if qb.QueryType = SELECTq then buildSelect qb st0
  else if qb.QueryType = INSERTq then buildInsert qb st0
  else if qb.QueryType = UPDATEq then buildUpdate qb st0
  else if qb.QueryType = DELETEq then buildDelete qb st0
  else ("", st0)

/-- `Build`'s returned pair `(sql, args)`. -/
def Build (qb : QueryBuilder) : String × List GoValue :=
  ((BuildSt qb).1, (BuildSt qb).2.parameters)

/-- The zero `QueryBuilder` (Go's zero struct value). -/
def zeroQB : QueryBuilder where
  QueryType := 0
  Table := ""
  Columns := []
  Conditions := []
  Joins := []
  GroupByColumns := []
  HavingConditions := []
  OrderByArr := []
  LimitInt := 0
  OffsetInt := 0
  InsertData := []
  UpdateData := []
  Parameters := []
  PhStyle := PlaceholderStyle.QuestionMark
  ParamIndex := 0
  ReturningColumns := []
  GuardWrites := false
  ConflictColumns := []
  ConflictConstraint := ""
  ConflictDoNothing := false
  ConflictUpdateSet := []

/-- `Reset()`: overwrite with the zero struct, keeping only the placeholder
style and re-enabling the write guard. -/
def Reset (qb : QueryBuilder) : QueryBuilder :=
  { zeroQB with PhStyle := qb.PhStyle, GuardWrites := true }

/-- `Build` including its deferred `Reset`: the returned pair together with
the builder state left behind for the next statement. -/
def BuildStep (qb : QueryBuilder) : (String × List GoValue) × QueryBuilder :=
  (Build qb, Reset qb)

/-- `NewQB()`: empty slices, `DollarN` style, counter 0, guard on. -/
def NewQB : QueryBuilder :=
  { zeroQB with PhStyle := PlaceholderStyle.DollarN, GuardWrites := true }

/-- `WithPlaceholders(style)`: set the style, reset the counter. -/
def WithPlaceholders (qb : QueryBuilder) (style : PlaceholderStyle) : QueryBuilder :=
  { qb with PhStyle := style, ParamIndex := 0 }

/-- `Select(columns...)`: sets the kind; with no columns, defaults to `*` only
when no column list exists yet; otherwise replaces the list. (Reachable
column lists are never a non-nil empty slice, so Go's `== nil` test is the
emptiness test here.) -/
def Select (qb : QueryBuilder) (columns : List String) : QueryBuilder :=
  let qb1 := { qb with QueryType := SELECTq }
  if columns.isEmpty then
    if qb1.Columns.isEmpty then { qb1 with Columns := ["*"] } else qb1
  else { qb1 with Columns := columns }

/-- `From(table)`. -/
def From (qb : QueryBuilder) (table : String) : QueryBuilder :=
  { qb with Table := table }

/-- `Insert(table)`: sets kind and table and initializes the insert map
(no reset of other fields). -/
def Insert (qb : QueryBuilder) (table : String) : QueryBuilder :=
  { qb with QueryType := INSERTq, Table := table, InsertData := [] }

/-- `Values(data)`: replaces the insert map wholesale. -/
def Values (qb : QueryBuilder) (data : List (String × GoValue)) : QueryBuilder :=
  { qb with InsertData := data }

/-- `Set(column, value)`: update-or-insert into the insert map. -/
def SetIns (qb : QueryBuilder) (column : String) (value : GoValue) : QueryBuilder :=
  { qb with InsertData := assocSet qb.InsertData column value }

/-- `Update(table)`: sets kind and table and initializes the update map
(no reset of other fields). -/
def Update (qb : QueryBuilder) (table : String) : QueryBuilder :=
  { qb with QueryType := UPDATEq, Table := table, UpdateData := [] }

/-- `SetUpdate(column, value)`: update-or-insert into the update map. -/
def SetUpdate (qb : QueryBuilder) (column : String) (value : GoValue) : QueryBuilder :=
  { qb with UpdateData := assocSet qb.UpdateData column value }

/-- `Delete(table)`: resets all per-query state, then sets kind and table. -/
def Delete (qb : QueryBuilder) (table : String) : QueryBuilder :=
  { Reset qb with QueryType := DELETEq, Table := table }

/-- `Where(column, op, value)`: append an AND-combined condition. -/
def Where (qb : QueryBuilder) (column : String) (op : Operator) (value : GoValue) :
    QueryBuilder :=
  { qb with Conditions := qb.Conditions ++ [⟨column, op, value, "AND"⟩] }

/-- `OrWhere(column, op, value)`: append an OR-combined condition. -/
def OrWhere (qb : QueryBuilder) (column : String) (op : Operator) (value : GoValue) :
    QueryBuilder :=
  { qb with Conditions := qb.Conditions ++ [⟨column, op, value, "OR"⟩] }

/-- `WhereIn(column, value)`. -/
def WhereIn (qb : QueryBuilder) (column : String) (value : GoValue) : QueryBuilder :=
  Where qb column Operator.INOP value

/-- `WhereNotIn(column, value)`. -/
def WhereNotIn (qb : QueryBuilder) (column : String) (value : GoValue) : QueryBuilder :=
  Where qb column Operator.NINOP value

/-- `WhereLike(column, pattern)`. -/
def WhereLike (qb : QueryBuilder) (column : String) (pattern : String) : QueryBuilder :=
  Where qb column Operator.LIKE (GoValue.vStr pattern)

/-- `WhereNotLike(column, pattern)`. -/
def WhereNotLike (qb : QueryBuilder) (column : String) (pattern : String) : QueryBuilder :=
  Where qb column Operator.NOTLIKE (GoValue.vStr pattern)

/-- `WhereNull(column)`. -/
def WhereNull (qb : QueryBuilder) (column : String) : QueryBuilder :=
  Where qb column Operator.NULLOP GoValue.vNull

/-- `WhereNotNull(column)`. -/
def WhereNotNull (qb : QueryBuilder) (column : String) : QueryBuilder :=
  Where qb column Operator.NOTNULLOP GoValue.vNull

/-- `Join(table, condition)`: append an INNER JOIN. -/
def JoinOp (qb : QueryBuilder) (table condition : String) : QueryBuilder :=
  { qb with Joins := qb.Joins ++ [⟨JoinType.INNER, table, condition⟩] }

/-- `LeftJoin(table, condition)`. -/
def LeftJoin (qb : QueryBuilder) (table condition : String) : QueryBuilder :=
  { qb with Joins := qb.Joins ++ [⟨JoinType.LEFT, table, condition⟩] }

/-- `RightJoin(table, condition)`. -/
def RightJoin (qb : QueryBuilder) (table condition : String) : QueryBuilder :=
  { qb with Joins := qb.Joins ++ [⟨JoinType.RIGHT, table, condition⟩] }

/-- `GroupBy(columns...)`: cumulative append. -/
def GroupBy (qb : QueryBuilder) (columns : List String) : QueryBuilder :=
  { qb with GroupByColumns := qb.GroupByColumns ++ columns }

/-- `Having(column, op, value)`: append an AND-combined HAVING condition. -/
def Having (qb : QueryBuilder) (column : String) (op : Operator) (value : GoValue) :
    QueryBuilder :=
  { qb with HavingConditions := qb.HavingConditions ++ [⟨column, op, value, "AND"⟩] }

/-- `OrderBy(column)`: ascending. -/
def OrderByOp (qb : QueryBuilder) (column : String) : QueryBuilder :=
  { qb with OrderByArr := qb.OrderByArr ++ [⟨column, false⟩] }

/-- `OrderByDesc(column)`: descending. -/
def OrderByDesc (qb : QueryBuilder) (column : String) : QueryBuilder :=
  { qb with OrderByArr := qb.OrderByArr ++ [⟨column, true⟩] }

/-- `Limit(n)`. -/
def Limit (qb : QueryBuilder) (n : Int) : QueryBuilder := { qb with LimitInt := n }

/-- `Offset(n)`. -/
def Offset (qb : QueryBuilder) (n : Int) : QueryBuilder := { qb with OffsetInt := n }

/-- `Paginate(page, perPage)` = `Limit(perPage).Offset((page-1)*perPage)`. -/
def Paginate (qb : QueryBuilder) (page perPage : Int) : QueryBuilder :=
  Offset (Limit qb perPage) ((page - 1) * perPage)

/-- `Returning(columns...)`: zero columns defaults to `*`. -/
def Returning (qb : QueryBuilder) (columns : List String) : QueryBuilder :=
  if columns.isEmpty then { qb with ReturningColumns := ["*"] }
  else { qb with ReturningColumns := columns }

/-- `OnConflict(columns...)`: sets the target columns, clears the constraint
name. -/
def OnConflict (qb : QueryBuilder) (columns : List String) : QueryBuilder :=
  { qb with ConflictColumns := columns, ConflictConstraint := "" }

/-- `OnConflictConstraint(name)`: sets the constraint name, clears the target
columns. -/
def OnConflictConstraint (qb : QueryBuilder) (name : String) : QueryBuilder :=
  { qb with ConflictConstraint := name, ConflictColumns := [] }

/-- `OnConflictDoNothing()`. -/
def OnConflictDoNothing (qb : QueryBuilder) : QueryBuilder :=
  { qb with ConflictDoNothing := true }

/-- `OnConflictSet(column, value)`: clears DO NOTHING and update-or-inserts
the assignment. -/
def OnConflictSet (qb : QueryBuilder) (column : String) (value : GoValue) : QueryBuilder :=
  { qb with ConflictDoNothing := false,
            ConflictUpdateSet := assocSet qb.ConflictUpdateSet column value }

/-- `OnConflictSetMap(m)`: `OnConflictSet` for each entry in turn. -/
def OnConflictSetMap (qb : QueryBuilder) (m : List (String × GoValue)) : QueryBuilder :=
  m.foldl (fun b kv => OnConflictSet b kv.1 kv.2) qb

/-- `Safe()`: re-enable the write guard. -/
def Safe (qb : QueryBuilder) : QueryBuilder := { qb with GuardWrites := true }

/-- `Unsafe()`: disable the write guard for this query. -/
def Unguard (qb : QueryBuilder) : QueryBuilder := { qb with GuardWrites := false }

/-- `Excluded(col)`: the `RawExpr` `excluded.<col>`. -/
def Excluded (col : String) : GoValue := GoValue.vRaw ("excluded." ++ col)

end QB

namespace QB

/-- Head-condition for splitting scans: the char list is empty or starts with
a non-digit (so no digit run can leak across a concatenation boundary). -/
def headNonDigit (l : List Char) : Bool :=
  match l with
  | [] => true
  | c :: _ => !c.isDigit

/-- Propositional form of `headNonDigit`. -/
def phOk (l : List Char) : Prop := headNonDigit l = true

/-- No dollar sign occurs in the char list. -/
def noDollar (l : List Char) : Prop := ∀ c ∈ l, c ≠ '$'

/-- Scanner for `$`-placeholders: walks the text, and after each `$` collects
the maximal following digit run as one token (a `$` with no digits yields no
token). `acc = some ds` records the digits of the token in progress. -/
def scanAux : Option (List Char) → List Char → List String
  | none, [] => []
  | some ds, [] => if ds.isEmpty then [] else [String.mk ds]
  | none, c :: rest => if c = '$' then scanAux (some []) rest else scanAux none rest
  | some ds, c :: rest =>
    if c.isDigit then scanAux (some (ds ++ [c])) rest
    else
      let tail := if c = '$' then scanAux (some []) rest else scanAux none rest
      if ds.isEmpty then tail else String.mk ds :: tail

/-- The `$`-placeholder tokens of a string, left to right (digit text only). -/
def phTokens (s : String) : List String := scanAux none s.data

/-- The expected token texts `a, a+1, ..., a+n-1` in decimal. -/
def tokensFrom : Nat → Nat → List String
  | _, 0 => []
  | a, n + 1 => natToStr a :: tokensFrom (a + 1) n

theorem strData_append (s t : String) : (s ++ t).data = s.data ++ t.data := by
  cases s; cases t; rfl

theorem phOk_append {x r : List Char} (hx : phOk x) (hr : phOk r) : phOk (x ++ r) := by
  cases x with
  | nil => simpa using hr
  | cons c cs => simpa [phOk, headNonDigit] using hx

theorem tokensFrom_append (n : Nat) :
    ∀ (a m : Nat), tokensFrom a n ++ tokensFrom (a + n) m = tokensFrom a (n + m) := by
  induction n with
  | zero => intro a m; simp [tokensFrom]
  | succ k ih =>
    intro a m
    have h1 : a + (k + 1) = (a + 1) + k := by omega
    have h2 : k + 1 + m = (k + m) + 1 := by omega
    simp only [tokensFrom, List.cons_append, h1, h2, ih (a + 1) m]

theorem scanAux_some_empty (b : List Char) (hb : phOk b) :
    scanAux (some []) b = scanAux none b := by
  cases b with
  | nil => rfl
  | cons c rest =>
    have hc : c.isDigit = false := by
      simpa [phOk, headNonDigit] using hb
    simp [scanAux, hc]

theorem scanAux_some_emit (ds : List Char) (hds : ¬ds.isEmpty) (b : List Char) (hb : phOk b) :
    scanAux (some ds) b = String.mk ds :: scanAux none b := by
  cases b with
  | nil => simp [scanAux, hds]
  | cons c rest =>
    have hc : c.isDigit = false := by
      simpa [phOk, headNonDigit] using hb
    simp [scanAux, hc, hds]

theorem scanAux_append (a : List Char) :
    ∀ (m : Option (List Char)) (b : List Char), phOk b →
      scanAux m (a ++ b) = scanAux m a ++ scanAux none b := by
  induction a with
  | nil =>
    intro m b hb
    cases m with
    | none => simp [scanAux]
    | some ds =>
      by_cases hds : ds.isEmpty
      · have : ds = [] := by simpa [List.isEmpty_iff] using hds
        subst this
        simpa [scanAux] using scanAux_some_empty b hb
      · rw [List.nil_append, scanAux_some_emit ds hds b hb]
        simp [scanAux, hds]
  | cons c a' ih =>
    intro m b hb
    cases m with
    | none =>
      by_cases hc : c = '$'
      · simp only [List.cons_append, scanAux, if_pos hc]
        exact ih (some []) b hb
      · simp only [List.cons_append, scanAux, if_neg hc]
        exact ih none b hb
    | some ds =>
      by_cases hd : c.isDigit
      · simp only [List.cons_append, scanAux, if_pos hd, List.append_eq]
        exact ih (some (ds ++ [c])) b hb
      · by_cases hc : c = '$'
        · simp only [List.cons_append, scanAux, if_neg hd, if_pos hc, List.append_eq]
          by_cases hds : ds.isEmpty
          · simp only [if_pos hds]
            exact ih (some []) b hb
          · simp only [if_neg hds, ih (some []) b hb, List.cons_append]
        · simp only [List.cons_append, scanAux, if_neg hd, if_neg hc, List.append_eq]
          by_cases hds : ds.isEmpty
          · simp only [if_pos hds]
            exact ih none b hb
          · simp only [if_neg hds, ih none b hb, List.cons_append]

theorem scanAux_noDollar (a : List Char) (ha : noDollar a) (b : List Char) :
    scanAux none (a ++ b) = scanAux none b := by
  induction a with
  | nil => rfl
  | cons c a' ih =>
    have hc : c ≠ '$' := ha c (by simp)
    simp only [List.cons_append, scanAux, if_neg hc]
    exact ih (fun x hx => ha x (by simp [hx]))

theorem scanAux_digit_run (ds : List Char) (hds : ∀ c ∈ ds, c.isDigit = true) :
    ∀ (acc r : List Char), scanAux (some acc) (ds ++ r) = scanAux (some (acc ++ ds)) r := by
  induction ds with
  | nil => intro acc r; simp
  | cons c ds' ih =>
    intro acc r
    have hc : c.isDigit = true := hds c (by simp)
    simp only [List.cons_append, scanAux, if_pos hc, List.append_eq]
    rw [ih (fun x hx => hds x (by simp [hx])) (acc ++ [c]) r]
    simp

end QB

namespace QB

theorem digitChar_isDigit {n : Nat} (h : n < 10) : (digitChar n).isDigit = true := by
  interval_cases n <;> decide

theorem natDigitsGo_digits :
    ∀ (fuel n : Nat), n < fuel → ∀ c ∈ natDigitsGo fuel n, c.isDigit = true := by
  intro fuel
  induction fuel with
  | zero => intro n h; omega
  | succ f ih =>
    intro n h c hc
    by_cases h10 : n < 10
    · simp only [natDigitsGo, if_pos h10, List.mem_singleton] at hc
      subst hc
      exact digitChar_isDigit h10
    · simp only [natDigitsGo, if_neg h10, List.mem_append, List.mem_singleton] at hc
      rcases hc with hc | hc
      · have hlt : n / 10 < f := by
          have := Nat.div_lt_self (show 0 < n by omega) (show 1 < 10 by omega)
          omega
        exact ih (n / 10) hlt c hc
      · subst hc
        exact digitChar_isDigit (Nat.mod_lt _ (by omega))

theorem natDigitsGo_ne_nil (fuel n : Nat) (h : n < fuel) : natDigitsGo fuel n ≠ [] := by
  cases fuel with
  | zero => omega
  | succ f =>
    by_cases h10 : n < 10 <;> simp [natDigitsGo, h10]

theorem natToStr_digits (n : Nat) : ∀ c ∈ (natToStr n).data, c.isDigit = true :=
  natDigitsGo_digits (n + 1) n (by omega)

theorem isDigit_ne_dollar {c : Char} (h : c.isDigit = true) : c ≠ '$' := by
  intro hc
  subst hc
  simp at h

theorem isDigit_ne_qmark {c : Char} (h : c.isDigit = true) : c ≠ '?' := by
  intro hc
  subst hc
  simp at h

theorem natToStr_noDollar (n : Nat) : noDollar (natToStr n).data :=
  fun c hc => isDigit_ne_dollar (natToStr_digits n c hc)

theorem intToStr_noDollar (i : Int) : noDollar (intToStr i).data := by
  unfold intToStr
  by_cases h : i < 0
  · simp only [if_pos h]
    intro c hc
    rw [strData_append] at hc
    rcases List.mem_append.mp hc with hc | hc
    · simp only [show ("-" : String).data = ['-'] from rfl, List.mem_singleton] at hc
      subst hc
      decide
    · exact natToStr_noDollar _ c hc
  · simp only [if_neg h]
    exact natToStr_noDollar _

/-- `Emits s a k`: in any digit-safe continuation, the scanner reads off the
tokens `a, a+1, ..., a+k-1` from `s` and then continues. -/
def Emits (s : String) (a k : Nat) : Prop :=
  ∀ r : List Char, phOk r → scanAux none (s.data ++ r) = tokensFrom a k ++ scanAux none r

theorem Emits.of_noDollar {s : String} (h : noDollar s.data) (a : Nat) : Emits s a 0 := by
  intro r _
  rw [scanAux_noDollar s.data h r]
  rfl

theorem Emits.append_tok {s1 s2 : String} {a n m : Nat}
    (h1 : Emits s1 a n) (h2 : Emits s2 (a + n) m) (hok : phOk s2.data) :
    Emits (s1 ++ s2) a (n + m) := by
  intro r hr
  rw [strData_append, List.append_assoc]
  rw [h1 (s2.data ++ r) (phOk_append hok hr), h2 r hr]
  rw [← List.append_assoc, tokensFrom_append]

theorem Emits.prepend_inert {s1 s2 : String} {a m : Nat}
    (h1 : noDollar s1.data) (h2 : Emits s2 a m) : Emits (s1 ++ s2) a m := by
  intro r hr
  rw [strData_append, List.append_assoc, scanAux_noDollar s1.data h1]
  exact h2 r hr

theorem Emits.append_inert {s1 s2 : String} {a n : Nat}
    (h1 : Emits s1 a n) (h2 : noDollar s2.data) (hok : phOk s2.data) :
    Emits (s1 ++ s2) a n := by
  have := Emits.append_tok h1 (Emits.of_noDollar h2 (a + n)) hok
  simpa using this

theorem Emits.placeholder (n : Nat) : Emits ("$" ++ natToStr (n + 1)) (n + 1) 1 := by
  intro r hr
  have hdata : ("$" ++ natToStr (n + 1)).data = '$' :: (natToStr (n + 1)).data := by
    rw [strData_append]
    rfl
  rw [hdata]
  have hstep : scanAux none ('$' :: ((natToStr (n + 1)).data ++ r)) =
      scanAux (some []) ((natToStr (n + 1)).data ++ r) := by
    simp [scanAux]
  rw [List.cons_append, hstep]
  rw [scanAux_digit_run (natToStr (n + 1)).data (natToStr_digits (n + 1)) [] r]
  rw [List.nil_append]
  have hne : ¬((natToStr (n + 1)).data).isEmpty := by
    have := natDigitsGo_ne_nil (n + 2) (n + 1) (by omega)
    simpa [natToStr, List.isEmpty_iff] using this
  rw [scanAux_some_emit _ hne r hr]
  rfl

theorem Emits.to_phTokens {s : String} {k : Nat} (h : Emits s 1 k) :
    phTokens s = tokensFrom 1 k := by
  have := h [] (show phOk [] from rfl)
  simpa [phTokens, scanAux] using this

end QB

namespace QB


/-- The string contains no `$` character. -/
def sFree (s : String) : Prop := noDollar s.data

instance (l : List Char) : Decidable (noDollar l) := by
  unfold noDollar
  infer_instance

instance (l : List Char) : Decidable (phOk l) := by
  unfold phOk
  infer_instance

instance (s : String) : Decidable (sFree s) := by
  unfold sFree noDollar
  infer_instance

theorem strAppend_assoc (a b c : String) : a ++ b ++ c = a ++ (b ++ c) := by
  apply String.ext
  simp only [strData_append, List.append_assoc]

theorem noDollar_append {a b : List Char} (ha : noDollar a) (hb : noDollar b) :
    noDollar (a ++ b) := by
  intro c hc
  rcases List.mem_append.mp hc with h | h
  · exact ha c h
  · exact hb c h

theorem sFree_append {s t : String} (hs : sFree s) (ht : sFree t) : sFree (s ++ t) := by
  unfold sFree
  rw [strData_append]
  exact noDollar_append hs ht

theorem sFree_strJoin {sep : String} (hsep : sFree sep) :
    ∀ {parts : List String}, (∀ p ∈ parts, sFree p) → sFree (strJoin sep parts) := by
  intro parts
  induction parts with
  | nil => intro _; exact (by decide : sFree "")
  | cons x rest ih =>
    intro h
    cases rest with
    | nil => exact h x (by simp)
    | cons y ys =>
      exact sFree_append (sFree_append (h x (by simp)) hsep)
        (ih (fun p hp => h p (by simp [hp])))

theorem opText_sFree (op : Operator) : sFree (opText op) := by
  cases op <;> decide

theorem joinTypeText_sFree (j : JoinType) : sFree (joinTypeText j) := by
  cases j <;> decide

theorem phOk_append_left {x r : List Char} (hne : x ≠ []) (hx : phOk x) : phOk (x ++ r) := by
  cases x with
  | nil => exact absurd rfl hne
  | cons c cs => simpa [phOk, headNonDigit] using hx

theorem emits_empty (a : Nat) : Emits "" a 0 :=
  Emits.of_noDollar (by decide) a

/-- Conditions whose column and combinator texts contain no `$`. -/
def condsFree (l : List Condition) : Prop :=
  ∀ c ∈ l, sFree c.Column ∧ sFree c.Logic

theorem bindAll_spec (vs : List GoValue) : ∀ st : RState,
    (bindAll PlaceholderStyle.DollarN st vs).2.paramIndex = st.paramIndex + vs.length ∧
    (bindAll PlaceholderStyle.DollarN st vs).2.parameters = st.parameters ++ vs ∧
    (bindAll PlaceholderStyle.DollarN st vs).1.length = vs.length ∧
    Emits (strJoin ", " (bindAll PlaceholderStyle.DollarN st vs).1)
      (st.paramIndex + 1) vs.length := by
  induction vs with
  | nil =>
    intro st
    exact ⟨rfl, by simp [bindAll], rfl, emits_empty _⟩
  | cons v rest ih =>
    intro st
    have hstep : bindAll PlaceholderStyle.DollarN st (v :: rest) =
        (("$" ++ natToStr (st.paramIndex + 1)) ::
          (bindAll PlaceholderStyle.DollarN
            ⟨st.paramIndex + 1, st.parameters ++ [v]⟩ rest).1,
         (bindAll PlaceholderStyle.DollarN
            ⟨st.paramIndex + 1, st.parameters ++ [v]⟩ rest).2) := by
      simp [bindAll, placeholder, pushParam]
    obtain ⟨hidx, hpar, hlen, hem⟩ := ih ⟨st.paramIndex + 1, st.parameters ++ [v]⟩
    simp only at hidx hpar hem
    rw [hstep]
    refine ⟨by simp only [List.length_cons]; omega, ?_, by simp [hlen], ?_⟩
    · rw [hpar]
      simp
    · cases hphs : (bindAll PlaceholderStyle.DollarN
          ⟨st.paramIndex + 1, st.parameters ++ [v]⟩ rest).1 with
      | nil =>
        have hr0 : rest.length = 0 := by rw [← hlen, hphs]; rfl
        simp only [hr0, List.length_cons, strJoin]
        simpa using Emits.placeholder st.paramIndex
      | cons p ps =>
        simp only [strJoin, List.length_cons]
        have hrest : Emits (", " ++ strJoin ", " (p :: ps)) (st.paramIndex + 1 + 1)
            rest.length := by
          refine Emits.prepend_inert (by decide) ?_
          rw [← hphs]
          exact hem
        have hok : phOk (", " ++ strJoin ", " (p :: ps)).data := by
          rw [strData_append]
          exact phOk_append_left (by decide) (by decide)
        have hcomb := Emits.append_tok (Emits.placeholder st.paramIndex) hrest hok
        rw [strAppend_assoc]
        simpa [Nat.add_comm] using hcomb

theorem condFragment_spec (c : Condition) (st : RState)
    (hcol : sFree c.Column) :
    ∃ k, (condFragment PlaceholderStyle.DollarN st c).2.paramIndex = st.paramIndex + k ∧
      (condFragment PlaceholderStyle.DollarN st c).2.parameters.length =
        st.parameters.length + k ∧
      Emits (condFragment PlaceholderStyle.DollarN st c).1 (st.paramIndex + 1) k := by
  obtain ⟨col, op, val, logic⟩ := c
  simp only [sFree] at hcol
  have hdefault : ∀ opS : String, sFree opS →
      Emits (col ++ " " ++ opS ++ " " ++ ("$" ++ natToStr (st.paramIndex + 1)))
        (st.paramIndex + 1) 1 := by
    intro opS hop
    have hpre : sFree (col ++ " " ++ opS ++ " ") :=
      sFree_append (sFree_append (sFree_append hcol (by decide)) hop) (by decide)
    exact Emits.prepend_inert hpre (Emits.placeholder st.paramIndex)
  have hinlike : ∀ (opS : String), sFree opS → ∀ vs : List GoValue,
      Emits (col ++ " " ++ opS ++ " (" ++
          strJoin ", " (bindAll PlaceholderStyle.DollarN st vs).1 ++ ")")
        (st.paramIndex + 1) vs.length := by
    intro opS hop vs
    obtain ⟨_, _, _, hem⟩ := bindAll_spec vs st
    have hpre : sFree (col ++ " " ++ opS ++ " (") :=
      sFree_append (sFree_append (sFree_append hcol (by decide)) hop) (by decide)
    exact Emits.append_inert (Emits.prepend_inert hpre hem) (by decide) (by decide)
  cases op with
  | NULLOP =>
    have hfrag : condFragment PlaceholderStyle.DollarN st
        ⟨col, Operator.NULLOP, val, logic⟩ = (col ++ " " ++ opText Operator.NULLOP, st) := rfl
    rw [hfrag]
    exact ⟨0, rfl, by simp,
      Emits.of_noDollar (sFree_append (sFree_append hcol (by decide)) (by decide)) _⟩
  | NOTNULLOP =>
    have hfrag : condFragment PlaceholderStyle.DollarN st
        ⟨col, Operator.NOTNULLOP, val, logic⟩ =
        (col ++ " " ++ opText Operator.NOTNULLOP, st) := rfl
    rw [hfrag]
    exact ⟨0, rfl, by simp,
      Emits.of_noDollar (sFree_append (sFree_append hcol (by decide)) (by decide)) _⟩
  | INOP =>
    cases hsv : sliceToInterfaces val with
    | none =>
      have hfrag : condFragment PlaceholderStyle.DollarN st
          ⟨col, Operator.INOP, val, logic⟩ = ("(1=0)", st) := by
        simp only [condFragment, hsv]
      rw [hfrag]
      refine ⟨0, rfl, by simp, ?_⟩
      show Emits "(1=0)" (st.paramIndex + 1) 0
      exact Emits.of_noDollar (by decide) _
    | some vs =>
      by_cases hvs : vs.isEmpty
      · have hfrag : condFragment PlaceholderStyle.DollarN st
            ⟨col, Operator.INOP, val, logic⟩ = ("(1=0)", st) := by
          simp only [condFragment, hsv, if_pos hvs]
        rw [hfrag]
        refine ⟨0, rfl, by simp, ?_⟩
        show Emits "(1=0)" (st.paramIndex + 1) 0
        exact Emits.of_noDollar (by decide) _
      · have hfrag : condFragment PlaceholderStyle.DollarN st
            ⟨col, Operator.INOP, val, logic⟩ =
            (col ++ " " ++ opText Operator.INOP ++ " (" ++
              strJoin ", " (bindAll PlaceholderStyle.DollarN st vs).1 ++ ")",
             (bindAll PlaceholderStyle.DollarN st vs).2) := by
          simp only [condFragment, hsv, if_neg hvs]
        rw [hfrag]
        obtain ⟨hidx, hpar, _, _⟩ := bindAll_spec vs st
        exact ⟨vs.length, hidx, by simp [hpar],
          hinlike (opText Operator.INOP) (opText_sFree Operator.INOP) vs⟩
  | NINOP =>
    cases hsv : sliceToInterfaces val with
    | none =>
      have hfrag : condFragment PlaceholderStyle.DollarN st
          ⟨col, Operator.NINOP, val, logic⟩ = ("(1=1)", st) := by
        simp only [condFragment, hsv]
      rw [hfrag]
      refine ⟨0, rfl, by simp, ?_⟩
      show Emits "(1=1)" (st.paramIndex + 1) 0
      exact Emits.of_noDollar (by decide) _
    | some vs =>
      by_cases hvs : vs.isEmpty
      · have hfrag : condFragment PlaceholderStyle.DollarN st
            ⟨col, Operator.NINOP, val, logic⟩ = ("(1=1)", st) := by
          simp only [condFragment, hsv, if_pos hvs]
        rw [hfrag]
        refine ⟨0, rfl, by simp, ?_⟩
        show Emits "(1=1)" (st.paramIndex + 1) 0
        exact Emits.of_noDollar (by decide) _
      · have hfrag : condFragment PlaceholderStyle.DollarN st
            ⟨col, Operator.NINOP, val, logic⟩ =
            (col ++ " " ++ opText Operator.NINOP ++ " (" ++
              strJoin ", " (bindAll PlaceholderStyle.DollarN st vs).1 ++ ")",
             (bindAll PlaceholderStyle.DollarN st vs).2) := by
          simp only [condFragment, hsv, if_neg hvs]
        rw [hfrag]
        obtain ⟨hidx, hpar, _, _⟩ := bindAll_spec vs st
        exact ⟨vs.length, hidx, by simp [hpar],
          hinlike (opText Operator.NINOP) (opText_sFree Operator.NINOP) vs⟩
  | EQ =>
    have hfrag : condFragment PlaceholderStyle.DollarN st ⟨col, Operator.EQ, val, logic⟩ =
        (col ++ " " ++ opText Operator.EQ ++ " " ++ ("$" ++ natToStr (st.paramIndex + 1)),
         ⟨st.paramIndex + 1, st.parameters ++ [val]⟩) := rfl
    rw [hfrag]
    exact ⟨1, rfl, by simp, hdefault _ (opText_sFree _)⟩
  | NEQ =>
    have hfrag : condFragment PlaceholderStyle.DollarN st ⟨col, Operator.NEQ, val, logic⟩ =
        (col ++ " " ++ opText Operator.NEQ ++ " " ++ ("$" ++ natToStr (st.paramIndex + 1)),
         ⟨st.paramIndex + 1, st.parameters ++ [val]⟩) := rfl
    rw [hfrag]
    exact ⟨1, rfl, by simp, hdefault _ (opText_sFree _)⟩
  | GT =>
    have hfrag : condFragment PlaceholderStyle.DollarN st ⟨col, Operator.GT, val, logic⟩ =
        (col ++ " " ++ opText Operator.GT ++ " " ++ ("$" ++ natToStr (st.paramIndex + 1)),
         ⟨st.paramIndex + 1, st.parameters ++ [val]⟩) := rfl
    rw [hfrag]
    exact ⟨1, rfl, by simp, hdefault _ (opText_sFree _)⟩
  | GTE =>
    have hfrag : condFragment PlaceholderStyle.DollarN st ⟨col, Operator.GTE, val, logic⟩ =
        (col ++ " " ++ opText Operator.GTE ++ " " ++ ("$" ++ natToStr (st.paramIndex + 1)),
         ⟨st.paramIndex + 1, st.parameters ++ [val]⟩) := rfl
    rw [hfrag]
    exact ⟨1, rfl, by simp, hdefault _ (opText_sFree _)⟩
  | LT =>
    have hfrag : condFragment PlaceholderStyle.DollarN st ⟨col, Operator.LT, val, logic⟩ =
        (col ++ " " ++ opText Operator.LT ++ " " ++ ("$" ++ natToStr (st.paramIndex + 1)),
         ⟨st.paramIndex + 1, st.parameters ++ [val]⟩) := rfl
    rw [hfrag]
    exact ⟨1, rfl, by simp, hdefault _ (opText_sFree _)⟩
  | LTE =>
    have hfrag : condFragment PlaceholderStyle.DollarN st ⟨col, Operator.LTE, val, logic⟩ =
        (col ++ " " ++ opText Operator.LTE ++ " " ++ ("$" ++ natToStr (st.paramIndex + 1)),
         ⟨st.paramIndex + 1, st.parameters ++ [val]⟩) := rfl
    rw [hfrag]
    exact ⟨1, rfl, by simp, hdefault _ (opText_sFree _)⟩
  | LIKE =>
    have hfrag : condFragment PlaceholderStyle.DollarN st ⟨col, Operator.LIKE, val, logic⟩ =
        (col ++ " " ++ opText Operator.LIKE ++ " " ++ ("$" ++ natToStr (st.paramIndex + 1)),
         ⟨st.paramIndex + 1, st.parameters ++ [val]⟩) := rfl
    rw [hfrag]
    exact ⟨1, rfl, by simp, hdefault _ (opText_sFree _)⟩
  | NOTLIKE =>
    have hfrag : condFragment PlaceholderStyle.DollarN st ⟨col, Operator.NOTLIKE, val, logic⟩ =
        (col ++ " " ++ opText Operator.NOTLIKE ++ " " ++ ("$" ++ natToStr (st.paramIndex + 1)),
         ⟨st.paramIndex + 1, st.parameters ++ [val]⟩) := rfl
    rw [hfrag]
    exact ⟨1, rfl, by simp, hdefault _ (opText_sFree _)⟩

end QB

namespace QB

theorem phOk_cons {c : Char} (h : c.isDigit = false) (l : List Char) : phOk (c :: l) := by
  simp [phOk, headNonDigit, h]

theorem buildConditionsAux_cons (style : PlaceholderStyle) (st : RState) (first : Bool)
    (c : Condition) (rest : List Condition) :
    buildConditionsAux style st first (c :: rest) =
      ((if first then "" else " " ++ c.Logic ++ " ") ++ (condFragment style st c).1 ++
        (buildConditionsAux style (condFragment style st c).2 false rest).1,
       (buildConditionsAux style (condFragment style st c).2 false rest).2) := rfl

theorem conds_spec (l : List Condition) : ∀ (st : RState) (first : Bool), condsFree l →
    ∃ k, (buildConditionsAux PlaceholderStyle.DollarN st first l).2.paramIndex =
        st.paramIndex + k ∧
      (buildConditionsAux PlaceholderStyle.DollarN st first l).2.parameters.length =
        st.parameters.length + k ∧
      Emits (buildConditionsAux PlaceholderStyle.DollarN st first l).1 (st.paramIndex + 1) k ∧
      (first = false → phOk (buildConditionsAux PlaceholderStyle.DollarN st first l).1.data) := by
  induction l with
  | nil =>
    intro st first _
    refine ⟨0, rfl, by simp [buildConditionsAux], ?_, ?_⟩
    · show Emits "" (st.paramIndex + 1) 0
      exact emits_empty _
    · intro _
      exact (show phOk [] from rfl)
  | cons c rest ih =>
    intro st first hfree
    have hc := hfree c (by simp)
    have hrest : condsFree rest := fun x hx => hfree x (by simp [hx])
    obtain ⟨k1, h1i, h1p, h1e⟩ := condFragment_spec c st hc.1
    obtain ⟨k2, h2i, h2p, h2e, h2ok⟩ :=
      ih (condFragment PlaceholderStyle.DollarN st c).2 false hrest
    rw [buildConditionsAux_cons]
    have hpre : sFree (if first then "" else " " ++ c.Logic ++ " ") := by
      cases first
      · simpa using sFree_append (sFree_append (by decide) hc.2) (by decide)
      · exact (by decide : sFree "")
    have h2e' : Emits (buildConditionsAux PlaceholderStyle.DollarN
        (condFragment PlaceholderStyle.DollarN st c).2 false rest).1
        (st.paramIndex + 1 + k1) k2 := by
      have hx : (condFragment PlaceholderStyle.DollarN st c).2.paramIndex + 1 =
          st.paramIndex + 1 + k1 := by omega
      rw [hx] at h2e
      exact h2e
    refine ⟨k1 + k2, ?_, ?_, ?_, ?_⟩
    · show (buildConditionsAux PlaceholderStyle.DollarN
          (condFragment PlaceholderStyle.DollarN st c).2 false rest).2.paramIndex =
        st.paramIndex + (k1 + k2)
      omega
    · show (buildConditionsAux PlaceholderStyle.DollarN
          (condFragment PlaceholderStyle.DollarN st c).2 false rest).2.parameters.length =
        st.parameters.length + (k1 + k2)
      omega
    · exact Emits.append_tok (Emits.prepend_inert hpre h1e) h2e' (h2ok rfl)
    · intro hf
      subst hf
      simp only [Bool.false_eq_true, if_false]
      rw [strData_append, strData_append, strData_append, strData_append]
      have hsp : (" " : String).data = [' '] := rfl
      rw [hsp]
      simp only [List.append_assoc, List.singleton_append]
      exact phOk_cons (by decide) _

end QB

namespace QB

theorem insertSorted_perm (x : String) (l : List String) :
    (insertSorted x l).Perm (x :: l) := by
  induction l with
  | nil => simp [insertSorted]
  | cons y ys ih =>
    by_cases h : strLe x y
    · simp [insertSorted, h]
    · simp only [insertSorted, if_neg h]
      exact ((ih.cons y).trans (List.Perm.swap x y ys)).symm.symm

theorem sortStrings_perm (l : List String) : (sortStrings l).Perm l := by
  induction l with
  | nil => simp [sortStrings]
  | cons x xs ih =>
    exact (insertSorted_perm x (sortStrings xs)).trans (ih.cons x)

theorem mem_sortedKeys {m : List (String × GoValue)} {k : String}
    (h : k ∈ sortedKeys m) : ∃ v, (k, v) ∈ m := by
  have hperm := sortStrings_perm (m.map Prod.fst)
  have hk : k ∈ m.map Prod.fst := hperm.mem_iff.mp h
  obtain ⟨kv, hkv, hfst⟩ := List.mem_map.mp hk
  exact ⟨kv.2, by simpa [← hfst] using hkv⟩

theorem lookupD_raw {m : List (String × GoValue)} {k : String} {r : String}
    (h : lookupD m k = GoValue.vRaw r) : ∃ v, (k, v) ∈ m ∧ v = GoValue.vRaw r := by
  induction m with
  | nil => exact absurd h (by simp [lookupD])
  | cons kv rest ih =>
    obtain ⟨k', v'⟩ := kv
    by_cases hk : k' = k
    · subst hk
      simp only [lookupD, if_pos rfl] at h
      exact ⟨v', by simp, h⟩
    · simp only [lookupD, if_neg hk] at h
      obtain ⟨v, hv, hr⟩ := ih h
      exact ⟨v, by simp [hv], hr⟩

/-- The raw text of a `RawExpr` value is `$`-free (other values untouched). -/
def rawFreeVal : GoValue → Prop
  | .vRaw r => sFree r
  | _ => True

instance (v : GoValue) : Decidable (rawFreeVal v) := by
  cases v <;> unfold rawFreeVal <;> infer_instance

/-- Key and raw-value `$`-freeness for a column-assignment map. -/
def mapFree (m : List (String × GoValue)) : Prop :=
  (∀ kv ∈ m, sFree kv.1) ∧ (∀ kv ∈ m, rawFreeVal kv.2)

theorem setLoop_cons (style : PlaceholderStyle) (f : String → GoValue) (st : RState)
    (k : String) (ks : List String) :
    setLoop style f st (k :: ks) =
      ((k ++ " = " ++ (placeholder style st).1) ::
        (setLoop style f (pushParam (placeholder style st).2 (f k)) ks).1,
       (setLoop style f (pushParam (placeholder style st).2 (f k)) ks).2) := rfl

theorem setLoop_length (f : String → GoValue) (ks : List String) : ∀ st : RState,
    (setLoop PlaceholderStyle.DollarN f st ks).1.length = ks.length := by
  induction ks with
  | nil => intro st; rfl
  | cons k ks ih =>
    intro st
    rw [setLoop_cons]
    simpa using ih _

theorem setLoop_spec (ks : List String) (f : String → GoValue)
    (hks : ∀ k ∈ ks, sFree k) : ∀ st : RState,
    (setLoop PlaceholderStyle.DollarN f st ks).2.paramIndex = st.paramIndex + ks.length ∧
    (setLoop PlaceholderStyle.DollarN f st ks).2.parameters = st.parameters ++ ks.map f ∧
    Emits (strJoin ", " (setLoop PlaceholderStyle.DollarN f st ks).1)
      (st.paramIndex + 1) ks.length := by
  induction ks with
  | nil =>
    intro st
    refine ⟨rfl, by simp [setLoop], ?_⟩
    show Emits "" (st.paramIndex + 1) 0
    exact emits_empty _
  | cons k ks ih =>
    intro st
    have hk : sFree k := hks k (by simp)
    have hrest : ∀ x ∈ ks, sFree x := fun x hx => hks x (by simp [hx])
    obtain ⟨hidx, hpar, hem⟩ :=
      ih hrest ⟨st.paramIndex + 1, st.parameters ++ [f k]⟩
    simp only at hidx hpar hem
    rw [setLoop_cons]
    simp only [placeholder, pushParam]
    have hpart : Emits (k ++ " = " ++ ("$" ++ natToStr (st.paramIndex + 1)))
        (st.paramIndex + 1) 1 :=
      Emits.prepend_inert (sFree_append hk (by decide : sFree " = "))
        (Emits.placeholder st.paramIndex)
    refine ⟨by simp only [List.length_cons]; omega, ?_, ?_⟩
    · rw [hpar]
      simp
    · cases hps : (setLoop PlaceholderStyle.DollarN f
          ⟨st.paramIndex + 1, st.parameters ++ [f k]⟩ ks).1 with
      | nil =>
        have hk0 : ks.length = 0 := by
          have := congrArg List.length hps
          simpa [setLoop_length] using this
        simp only [hk0, List.length_cons, strJoin]
        simpa using hpart
      | cons p ps =>
        simp only [strJoin, List.length_cons]
        have hrest2 : Emits (", " ++ strJoin ", " (p :: ps)) (st.paramIndex + 1 + 1)
            ks.length := by
          refine Emits.prepend_inert (by decide) ?_
          rw [← hps]
          exact hem
        have hok : phOk (", " ++ strJoin ", " (p :: ps)).data := by
          rw [strData_append]
          exact phOk_append_left (by decide) (by decide)
        have hcomb := Emits.append_tok hpart hrest2 hok
        rw [strAppend_assoc]
        simpa [Nat.add_comm] using hcomb

end QB

namespace QB

theorem emits_of_empty {a n : Nat} (h : Emits "" a n) : n = 0 := by
  have := h [] (show phOk [] from rfl)
  simp only [scanAux, List.append_nil] at this
  cases n with
  | zero => rfl
  | succ m =>
    simp [tokensFrom] at this

theorem conflictLoop_raw (f : String → GoValue) (st : RState) (k : String)
    (ks : List String) {r : String} (hfk : asRaw (f k) = some r) :
    conflictLoop PlaceholderStyle.DollarN f st (k :: ks) =
      ((k ++ " = " ++ r) :: (conflictLoop PlaceholderStyle.DollarN f st ks).1,
       (conflictLoop PlaceholderStyle.DollarN f st ks).2) := by
  simp only [conflictLoop, hfk]

theorem conflictLoop_bind (f : String → GoValue) (st : RState) (k : String)
    (ks : List String) (hfk : asRaw (f k) = none) :
    conflictLoop PlaceholderStyle.DollarN f st (k :: ks) =
      ((k ++ " = " ++ ("$" ++ natToStr (st.paramIndex + 1))) ::
        (conflictLoop PlaceholderStyle.DollarN f
          ⟨st.paramIndex + 1, st.parameters ++ [f k]⟩ ks).1,
       (conflictLoop PlaceholderStyle.DollarN f
          ⟨st.paramIndex + 1, st.parameters ++ [f k]⟩ ks).2) := by
  simp only [conflictLoop, hfk, placeholder, pushParam]

theorem conflictLoop_spec (ks : List String) (f : String → GoValue)
    (hks : ∀ k ∈ ks, sFree k)
    (hraw : ∀ k ∈ ks, ∀ r, asRaw (f k) = some r → sFree r) : ∀ st : RState,
    ∃ n, (conflictLoop PlaceholderStyle.DollarN f st ks).2.paramIndex = st.paramIndex + n ∧
      (conflictLoop PlaceholderStyle.DollarN f st ks).2.parameters.length =
        st.parameters.length + n ∧
      Emits (strJoin ", " (conflictLoop PlaceholderStyle.DollarN f st ks).1)
        (st.paramIndex + 1) n := by
  induction ks with
  | nil =>
    intro st
    refine ⟨0, rfl, by simp [conflictLoop], ?_⟩
    show Emits "" (st.paramIndex + 1) 0
    exact emits_empty _
  | cons k ks ih =>
    intro st
    have hk : sFree k := hks k (by simp)
    have hksr : ∀ x ∈ ks, sFree x := fun x hx => hks x (by simp [hx])
    have hrawr : ∀ x ∈ ks, ∀ r, asRaw (f x) = some r → sFree r :=
      fun x hx => hraw x (by simp [hx])
    cases hfk : asRaw (f k) with
    | some r =>
      have hrfree : sFree r := hraw k (by simp) r hfk
      obtain ⟨n, hidx, hlen, hem⟩ := ih hksr hrawr st
      rw [conflictLoop_raw f st k ks hfk]
      have hpfree : sFree (k ++ " = " ++ r) :=
        sFree_append (sFree_append hk (by decide)) hrfree
      refine ⟨n, hidx, hlen, ?_⟩
      cases hps : (conflictLoop PlaceholderStyle.DollarN f st ks).1 with
      | nil =>
        have hn : n = 0 := by
          rw [hps] at hem
          exact emits_of_empty hem
        subst hn
        simp only [strJoin]
        exact Emits.of_noDollar hpfree _
      | cons p ps =>
        simp only [strJoin]
        rw [← hps]
        exact Emits.prepend_inert (sFree_append hpfree (by decide))
          (by rw [hps]; rw [← hps]; exact hem)
    | none =>
      obtain ⟨n, hidx, hlen, hem⟩ := ih hksr hrawr ⟨st.paramIndex + 1, st.parameters ++ [f k]⟩
      simp only at hidx hlen hem
      rw [conflictLoop_bind f st k ks hfk]
      have hpart : Emits (k ++ " = " ++ ("$" ++ natToStr (st.paramIndex + 1)))
          (st.paramIndex + 1) 1 :=
        Emits.prepend_inert (sFree_append hk (by decide : sFree " = "))
          (Emits.placeholder st.paramIndex)
      refine ⟨n + 1, ?_, ?_, ?_⟩
      · show (conflictLoop PlaceholderStyle.DollarN f
            ⟨st.paramIndex + 1, st.parameters ++ [f k]⟩ ks).2.paramIndex =
          st.paramIndex + (n + 1)
        omega
      · show (conflictLoop PlaceholderStyle.DollarN f
            ⟨st.paramIndex + 1, st.parameters ++ [f k]⟩ ks).2.parameters.length =
          st.parameters.length + (n + 1)
        have hl : (st.parameters ++ [f k]).length = st.parameters.length + 1 := by simp
        omega
      cases hps : (conflictLoop PlaceholderStyle.DollarN f
          ⟨st.paramIndex + 1, st.parameters ++ [f k]⟩ ks).1 with
      | nil =>
        have hn : n = 0 := by
          rw [hps] at hem
          exact emits_of_empty hem
        subst hn
        simp only [strJoin]
        simpa using hpart
      | cons p ps =>
        simp only [strJoin]
        have hrest2 : Emits (", " ++ strJoin ", " (p :: ps)) (st.paramIndex + 1 + 1) n := by
          refine Emits.prepend_inert (by decide) ?_
          rw [← hps]
          exact hem
        have hok : phOk (", " ++ strJoin ", " (p :: ps)).data := by
          rw [strData_append]
          exact phOk_append_left (by decide) (by decide)
        have hcomb := Emits.append_tok hpart hrest2 hok
        rw [strAppend_assoc]
        simpa [Nat.add_comm] using hcomb

end QB

namespace QB

theorem asRaw_some {v : GoValue} {r : String} (h : asRaw v = some r) :
    v = GoValue.vRaw r := by
  cases v <;> simp_all [asRaw]

/-- `$`-freeness of the conflict configuration texts. -/
def conflictFree (qb : QueryBuilder) : Prop :=
  sFree qb.ConflictConstraint ∧ (∀ c ∈ qb.ConflictColumns, sFree c) ∧
    mapFree qb.ConflictUpdateSet

theorem renderOnConflict_spec (qb : QueryBuilder) (st : RState)
    (hsty : qb.PhStyle = PlaceholderStyle.DollarN) (hfree : conflictFree qb) :
    ∃ n, (renderOnConflict qb st).2.paramIndex = st.paramIndex + n ∧
      (renderOnConflict qb st).2.parameters.length = st.parameters.length + n ∧
      Emits (renderOnConflict qb st).1 (st.paramIndex + 1) n ∧
      phOk (renderOnConflict qb st).1.data := by
  obtain ⟨hcon, hcols, hmap⟩ := hfree
  have h1 : ¬(qb.PhStyle ≠ PlaceholderStyle.DollarN) := by simp [hsty]
  by_cases h2 : qb.ConflictColumns.isEmpty ∧ qb.ConflictConstraint = "" ∧
      qb.ConflictDoNothing = false ∧ qb.ConflictUpdateSet.isEmpty
  · have heq : renderOnConflict qb st = ("", st) := by
      simp only [renderOnConflict, if_neg h1, if_pos h2]
    rw [heq]
    refine ⟨0, rfl, by simp, ?_, ?_⟩
    · show Emits "" (st.paramIndex + 1) 0
      exact emits_empty _
    · exact (show phOk [] from rfl)
  · have htfree : sFree (if qb.ConflictConstraint ≠ "" then
        "ON CONSTRAINT " ++ qb.ConflictConstraint
      else if ¬qb.ConflictColumns.isEmpty then
        "(" ++ strJoin ", " qb.ConflictColumns ++ ")"
      else "") := by
      by_cases hc : qb.ConflictConstraint ≠ ""
      · simp only [if_pos hc]
        exact sFree_append (by decide) hcon
      · simp only [if_neg hc]
        by_cases hcc : ¬qb.ConflictColumns.isEmpty
        · simp only [if_pos hcc]
          exact sFree_append (sFree_append (by decide) (sFree_strJoin (by decide) hcols))
            (by decide)
        · simp only [if_neg hcc]
          exact (by decide : sFree "")
    have hs1free : sFree (" ON CONFLICT " ++ (if qb.ConflictConstraint ≠ "" then
        "ON CONSTRAINT " ++ qb.ConflictConstraint
      else if ¬qb.ConflictColumns.isEmpty then
        "(" ++ strJoin ", " qb.ConflictColumns ++ ")"
      else "")) := sFree_append (by decide) htfree
    have hs1ok : ∀ r : List Char, phOk ((" ON CONFLICT " : String).data ++ r) :=
      fun r => phOk_append_left (by decide) (by decide)
    by_cases h3 : qb.ConflictDoNothing = true
    · have heq : renderOnConflict qb st =
          (" ON CONFLICT " ++ (if qb.ConflictConstraint ≠ "" then
              "ON CONSTRAINT " ++ qb.ConflictConstraint
            else if ¬qb.ConflictColumns.isEmpty then
              "(" ++ strJoin ", " qb.ConflictColumns ++ ")"
            else "") ++ " DO NOTHING", st) := by
        simp only [renderOnConflict, if_neg h1, if_neg h2, if_pos h3]
      rw [heq]
      refine ⟨0, rfl, by simp, ?_, ?_⟩
      · exact Emits.of_noDollar (sFree_append hs1free (by decide)) _
      · rw [strData_append, strData_append, List.append_assoc]
        exact hs1ok _
    · by_cases h4 : ¬qb.ConflictUpdateSet.isEmpty
      · have heq : renderOnConflict qb st =
            (" ON CONFLICT " ++ (if qb.ConflictConstraint ≠ "" then
                "ON CONSTRAINT " ++ qb.ConflictConstraint
              else if ¬qb.ConflictColumns.isEmpty then
                "(" ++ strJoin ", " qb.ConflictColumns ++ ")"
              else "") ++ " DO UPDATE SET " ++
              strJoin ", " (conflictLoop qb.PhStyle (lookupD qb.ConflictUpdateSet) st
                (sortedKeys qb.ConflictUpdateSet)).1,
             (conflictLoop qb.PhStyle (lookupD qb.ConflictUpdateSet) st
                (sortedKeys qb.ConflictUpdateSet)).2) := by
          simp only [renderOnConflict, if_neg h1, if_neg h2, if_neg h3, if_pos h4]
        have hkeys : ∀ k ∈ sortedKeys qb.ConflictUpdateSet, sFree k := by
          intro k hk
          obtain ⟨v, hv⟩ := mem_sortedKeys hk
          exact hmap.1 (k, v) hv
        have hraws : ∀ k ∈ sortedKeys qb.ConflictUpdateSet, ∀ r,
            asRaw (lookupD qb.ConflictUpdateSet k) = some r → sFree r := by
          intro k _ r hr
          obtain ⟨v, hvm, hveq⟩ := lookupD_raw (asRaw_some hr)
          have hrv := hmap.2 (k, v) hvm
          rw [hveq] at hrv
          simpa [rawFreeVal] using hrv
        obtain ⟨n, hidx, hlen, hem⟩ :=
          conflictLoop_spec (sortedKeys qb.ConflictUpdateSet)
            (lookupD qb.ConflictUpdateSet) hkeys hraws st
        rw [heq, hsty]
        refine ⟨n, hidx, hlen, ?_, ?_⟩
        · exact Emits.prepend_inert (sFree_append hs1free (by decide)) hem
        · rw [strData_append, strData_append, strData_append,
            List.append_assoc, List.append_assoc]
          exact hs1ok _
      · have heq : renderOnConflict qb st =
            (" ON CONFLICT " ++ (if qb.ConflictConstraint ≠ "" then
                "ON CONSTRAINT " ++ qb.ConflictConstraint
              else if ¬qb.ConflictColumns.isEmpty then
                "(" ++ strJoin ", " qb.ConflictColumns ++ ")"
              else ""), st) := by
          simp only [renderOnConflict, if_neg h1, if_neg h2, if_neg h3, if_neg h4]
        rw [heq]
        refine ⟨0, rfl, by simp, ?_, ?_⟩
        · exact Emits.of_noDollar hs1free _
        · rw [strData_append]
          exact hs1ok _

end QB

namespace QB

theorem joinsStr_sFree (js : List Join)
    (h : ∀ j ∈ js, sFree j.Table ∧ sFree j.Condition) : sFree (joinsStr js) := by
  induction js with
  | nil => exact (by decide : sFree "")
  | cons j rest ih =>
    have hj := h j (by simp)
    have hr := ih (fun x hx => h x (by simp [hx]))
    exact sFree_append (sFree_append (sFree_append (sFree_append (sFree_append
      (sFree_append (by decide : sFree " ") (joinTypeText_sFree j.JType))
      (by decide : sFree " ")) hj.1) (by decide : sFree " ON ")) hj.2) hr

theorem orderPart_sFree (o : OrderBy) (h : sFree o.Column) : sFree (orderPart o) := by
  unfold orderPart
  by_cases hd : o.Desc <;> simp only [hd, if_true, if_false, Bool.false_eq_true] <;>
    exact sFree_append h (by decide)

theorem sFree_ite (c : Prop) [Decidable c] {a b : String} (ha : sFree a) (hb : sFree b) :
    sFree (if c then a else b) := by
  by_cases h : c
  · simpa [h] using ha
  · simpa [h] using hb

theorem phOk_litPre (lit x : String) (hne : lit.data ≠ []) (hlit : phOk lit.data) :
    phOk (lit ++ x).data := by
  rw [strData_append]
  exact phOk_append_left hne hlit

end QB

namespace QB

theorem phOk_ite (c : Prop) [Decidable c] {a b : String} (ha : phOk a.data)
    (hb : phOk b.data) : phOk (if c then a else b).data := by
  by_cases h : c
  · simpa [h] using ha
  · simpa [h] using hb

/-- All caller-supplied texts of the builder, and the raw-expression values it
splices, contain no `$` character. -/
def dollarFree (qb : QueryBuilder) : Prop :=
  sFree qb.Table ∧
  (∀ c ∈ qb.Columns, sFree c) ∧
  condsFree qb.Conditions ∧
  condsFree qb.HavingConditions ∧
  (∀ j ∈ qb.Joins, sFree j.Table ∧ sFree j.Condition) ∧
  (∀ g ∈ qb.GroupByColumns, sFree g) ∧
  (∀ o ∈ qb.OrderByArr, sFree o.Column) ∧
  (∀ r ∈ qb.ReturningColumns, sFree r) ∧
  (∀ kv ∈ qb.InsertData, sFree kv.1) ∧
  (∀ kv ∈ qb.UpdateData, sFree kv.1) ∧
  conflictFree qb

theorem buildSelect_spec (qb : QueryBuilder) (st : RState)
    (hsty : qb.PhStyle = PlaceholderStyle.DollarN) (hfree : dollarFree qb) :
    ∃ k, (buildSelect qb st).2.paramIndex = st.paramIndex + k ∧
      (buildSelect qb st).2.parameters.length = st.parameters.length + k ∧
      Emits (buildSelect qb st).1 (st.paramIndex + 1) k := by
  obtain ⟨hTab, hCols, hConds, hHavs, hJoins, hGroup, hOrd, hRet, _, _, _⟩ := hfree
  have hA : sFree ("SELECT " ++ strJoin ", " qb.Columns ++
      (if qb.Table = "" then "" else " FROM " ++ qb.Table) ++ joinsStr qb.Joins) :=
    sFree_append (sFree_append (sFree_append (by decide : sFree "SELECT ")
      (sFree_strJoin (by decide) hCols))
      (sFree_ite _ (by decide : sFree "") (sFree_append (by decide) hTab)))
      (joinsStr_sFree _ hJoins)
  have hGfree : sFree (if qb.GroupByColumns.isEmpty then "" else
      " GROUP BY " ++ strJoin ", " qb.GroupByColumns) :=
    sFree_ite _ (by decide : sFree "")
      (sFree_append (by decide) (sFree_strJoin (by decide) hGroup))
  have hGok : phOk (if qb.GroupByColumns.isEmpty then "" else
      (" GROUP BY " ++ strJoin ", " qb.GroupByColumns) : String).data :=
    phOk_ite _ (show phOk [] from rfl) (phOk_litPre _ _ (by decide) (by decide))
  have hOrdParts : ∀ p ∈ qb.OrderByArr.map orderPart, sFree p := by
    intro p hp
    obtain ⟨o, ho, hop⟩ := List.mem_map.mp hp
    rw [← hop]
    exact orderPart_sFree o (hOrd o ho)
  have hOfree : sFree (if qb.OrderByArr.isEmpty then "" else
      " ORDER BY " ++ strJoin ", " (qb.OrderByArr.map orderPart)) :=
    sFree_ite _ (by decide : sFree "")
      (sFree_append (by decide) (sFree_strJoin (by decide) hOrdParts))
  have hOok : phOk (if qb.OrderByArr.isEmpty then "" else
      (" ORDER BY " ++ strJoin ", " (qb.OrderByArr.map orderPart)) : String).data :=
    phOk_ite _ (show phOk [] from rfl) (phOk_litPre _ _ (by decide) (by decide))
  have hLfree : sFree (if 0 < qb.LimitInt then " LIMIT " ++ intToStr qb.LimitInt
      else "") :=
    sFree_ite _ (sFree_append (by decide) (intToStr_noDollar _)) (by decide : sFree "")
  have hLok : phOk (if 0 < qb.LimitInt then (" LIMIT " ++ intToStr qb.LimitInt)
      else ("" : String)).data :=
    phOk_ite _ (phOk_litPre _ _ (by decide) (by decide)) (show phOk [] from rfl)
  have hFfree : sFree (if 0 < qb.OffsetInt then " OFFSET " ++ intToStr qb.OffsetInt
      else "") :=
    sFree_ite _ (sFree_append (by decide) (intToStr_noDollar _)) (by decide : sFree "")
  have hFok : phOk (if 0 < qb.OffsetInt then (" OFFSET " ++ intToStr qb.OffsetInt)
      else ("" : String)).data :=
    phOk_ite _ (phOk_litPre _ _ (by decide) (by decide)) (show phOk [] from rfl)
  by_cases hw : qb.Conditions.isEmpty = true
  · by_cases hh : qb.HavingConditions.isEmpty = true
    · have heq : buildSelect qb st =
          ("SELECT " ++ strJoin ", " qb.Columns ++
            (if qb.Table = "" then "" else " FROM " ++ qb.Table) ++ joinsStr qb.Joins ++
            (if qb.GroupByColumns.isEmpty then "" else
              " GROUP BY " ++ strJoin ", " qb.GroupByColumns) ++
            (if qb.OrderByArr.isEmpty then "" else
              " ORDER BY " ++ strJoin ", " (qb.OrderByArr.map orderPart)) ++
            (if 0 < qb.LimitInt then " LIMIT " ++ intToStr qb.LimitInt else "") ++
            (if 0 < qb.OffsetInt then " OFFSET " ++ intToStr qb.OffsetInt else ""), st) := by
        simp only [buildSelect, if_pos hw, if_pos hh]
      rw [heq]
      refine ⟨0, rfl, by simp, ?_⟩
      exact Emits.of_noDollar
        (sFree_append (sFree_append (sFree_append (sFree_append hA hGfree) hOfree)
          hLfree) hFfree) _
    · have heq : buildSelect qb st =
          ("SELECT " ++ strJoin ", " qb.Columns ++
            (if qb.Table = "" then "" else " FROM " ++ qb.Table) ++ joinsStr qb.Joins ++
            (if qb.GroupByColumns.isEmpty then "" else
              " GROUP BY " ++ strJoin ", " qb.GroupByColumns) ++
            " HAVING " ++
            (buildConditionsAux qb.PhStyle st true qb.HavingConditions).1 ++
            (if qb.OrderByArr.isEmpty then "" else
              " ORDER BY " ++ strJoin ", " (qb.OrderByArr.map orderPart)) ++
            (if 0 < qb.LimitInt then " LIMIT " ++ intToStr qb.LimitInt else "") ++
            (if 0 < qb.OffsetInt then " OFFSET " ++ intToStr qb.OffsetInt else ""),
           (buildConditionsAux qb.PhStyle st true qb.HavingConditions).2) := by
        simp only [buildSelect, if_pos hw, if_neg hh]
      rw [heq, hsty]
      obtain ⟨k2, h2i, h2p, h2e, _⟩ := conds_spec qb.HavingConditions st true hHavs
      have e5 : Emits ("SELECT " ++ strJoin ", " qb.Columns ++
          (if qb.Table = "" then "" else " FROM " ++ qb.Table) ++ joinsStr qb.Joins ++
          (if qb.GroupByColumns.isEmpty then "" else
            " GROUP BY " ++ strJoin ", " qb.GroupByColumns)) (st.paramIndex + 1) 0 :=
        Emits.of_noDollar (sFree_append hA hGfree) _
      have e6 : Emits ("SELECT " ++ strJoin ", " qb.Columns ++
          (if qb.Table = "" then "" else " FROM " ++ qb.Table) ++ joinsStr qb.Joins ++
          (if qb.GroupByColumns.isEmpty then "" else
            " GROUP BY " ++ strJoin ", " qb.GroupByColumns) ++ " HAVING " ++
          (buildConditionsAux PlaceholderStyle.DollarN st true qb.HavingConditions).1)
          (st.paramIndex + 1) k2 := by
        rw [strAppend_assoc]
        have := Emits.append_tok e5 (Emits.prepend_inert (by decide : sFree " HAVING ") h2e)
          (phOk_litPre _ _ (by decide) (by decide))
        simpa using this
      refine ⟨k2, ?_, ?_, ?_⟩
      · show (buildConditionsAux PlaceholderStyle.DollarN st true
            qb.HavingConditions).2.paramIndex = st.paramIndex + k2
        omega
      · show (buildConditionsAux PlaceholderStyle.DollarN st true
            qb.HavingConditions).2.parameters.length = st.parameters.length + k2
        omega
      · exact Emits.append_inert (Emits.append_inert (Emits.append_inert e6 hOfree hOok)
          hLfree hLok) hFfree hFok
  · obtain ⟨k1, h1i, h1p, h1e, _⟩ := conds_spec qb.Conditions st true hConds
    have e4 : Emits ("SELECT " ++ strJoin ", " qb.Columns ++
        (if qb.Table = "" then "" else " FROM " ++ qb.Table) ++ joinsStr qb.Joins ++
        " WHERE " ++
        (buildConditionsAux PlaceholderStyle.DollarN st true qb.Conditions).1)
        (st.paramIndex + 1) k1 := by
      rw [strAppend_assoc]
      exact Emits.prepend_inert hA
        (Emits.prepend_inert (by decide : sFree " WHERE ") h1e)
    by_cases hh : qb.HavingConditions.isEmpty = true
    · have heq : buildSelect qb st =
          ("SELECT " ++ strJoin ", " qb.Columns ++
            (if qb.Table = "" then "" else " FROM " ++ qb.Table) ++ joinsStr qb.Joins ++
            " WHERE " ++ (buildConditionsAux qb.PhStyle st true qb.Conditions).1 ++
            (if qb.GroupByColumns.isEmpty then "" else
              " GROUP BY " ++ strJoin ", " qb.GroupByColumns) ++
            (if qb.OrderByArr.isEmpty then "" else
              " ORDER BY " ++ strJoin ", " (qb.OrderByArr.map orderPart)) ++
            (if 0 < qb.LimitInt then " LIMIT " ++ intToStr qb.LimitInt else "") ++
            (if 0 < qb.OffsetInt then " OFFSET " ++ intToStr qb.OffsetInt else ""),
           (buildConditionsAux qb.PhStyle st true qb.Conditions).2) := by
        simp only [buildSelect, if_neg hw, if_pos hh]
      rw [heq, hsty]
      refine ⟨k1, ?_, ?_, ?_⟩
      · show (buildConditionsAux PlaceholderStyle.DollarN st true
            qb.Conditions).2.paramIndex = st.paramIndex + k1
        omega
      · show (buildConditionsAux PlaceholderStyle.DollarN st true
            qb.Conditions).2.parameters.length = st.parameters.length + k1
        omega
      · exact Emits.append_inert (Emits.append_inert (Emits.append_inert
          (Emits.append_inert e4 hGfree hGok) hOfree hOok) hLfree hLok) hFfree hFok
    · have heq : buildSelect qb st =
          ("SELECT " ++ strJoin ", " qb.Columns ++
            (if qb.Table = "" then "" else " FROM " ++ qb.Table) ++ joinsStr qb.Joins ++
            " WHERE " ++ (buildConditionsAux qb.PhStyle st true qb.Conditions).1 ++
            (if qb.GroupByColumns.isEmpty then "" else
              " GROUP BY " ++ strJoin ", " qb.GroupByColumns) ++
            " HAVING " ++
            (buildConditionsAux qb.PhStyle
              (buildConditionsAux qb.PhStyle st true qb.Conditions).2 true
              qb.HavingConditions).1 ++
            (if qb.OrderByArr.isEmpty then "" else
              " ORDER BY " ++ strJoin ", " (qb.OrderByArr.map orderPart)) ++
            (if 0 < qb.LimitInt then " LIMIT " ++ intToStr qb.LimitInt else "") ++
            (if 0 < qb.OffsetInt then " OFFSET " ++ intToStr qb.OffsetInt else ""),
           (buildConditionsAux qb.PhStyle
              (buildConditionsAux qb.PhStyle st true qb.Conditions).2 true
              qb.HavingConditions).2) := by
        simp only [buildSelect, if_neg hw, if_neg hh]
      rw [heq, hsty]
      obtain ⟨k2, h2i, h2p, h2e, _⟩ := conds_spec qb.HavingConditions
        (buildConditionsAux PlaceholderStyle.DollarN st true qb.Conditions).2 true hHavs
      have h2e' : Emits (buildConditionsAux PlaceholderStyle.DollarN
          (buildConditionsAux PlaceholderStyle.DollarN st true qb.Conditions).2 true
          qb.HavingConditions).1 (st.paramIndex + 1 + k1) k2 := by
        have hx : (buildConditionsAux PlaceholderStyle.DollarN st true
            qb.Conditions).2.paramIndex + 1 = st.paramIndex + 1 + k1 := by omega
        rw [hx] at h2e
        exact h2e
      have e5 : Emits ("SELECT " ++ strJoin ", " qb.Columns ++
          (if qb.Table = "" then "" else " FROM " ++ qb.Table) ++ joinsStr qb.Joins ++
          " WHERE " ++ (buildConditionsAux PlaceholderStyle.DollarN st true
            qb.Conditions).1 ++
          (if qb.GroupByColumns.isEmpty then "" else
            " GROUP BY " ++ strJoin ", " qb.GroupByColumns)) (st.paramIndex + 1) k1 :=
        Emits.append_inert e4 hGfree hGok
      have e6 : Emits ("SELECT " ++ strJoin ", " qb.Columns ++
          (if qb.Table = "" then "" else " FROM " ++ qb.Table) ++ joinsStr qb.Joins ++
          " WHERE " ++ (buildConditionsAux PlaceholderStyle.DollarN st true
            qb.Conditions).1 ++
          (if qb.GroupByColumns.isEmpty then "" else
            " GROUP BY " ++ strJoin ", " qb.GroupByColumns) ++ " HAVING " ++
          (buildConditionsAux PlaceholderStyle.DollarN
            (buildConditionsAux PlaceholderStyle.DollarN st true qb.Conditions).2 true
            qb.HavingConditions).1) (st.paramIndex + 1) (k1 + k2) := by
        rw [strAppend_assoc]
        exact Emits.append_tok e5
          (Emits.prepend_inert (by decide : sFree " HAVING ") h2e')
          (phOk_litPre _ _ (by decide) (by decide))
      refine ⟨k1 + k2, ?_, ?_, ?_⟩
      · show (buildConditionsAux PlaceholderStyle.DollarN
            (buildConditionsAux PlaceholderStyle.DollarN st true qb.Conditions).2 true
            qb.HavingConditions).2.paramIndex = st.paramIndex + (k1 + k2)
        omega
      · show (buildConditionsAux PlaceholderStyle.DollarN
            (buildConditionsAux PlaceholderStyle.DollarN st true qb.Conditions).2 true
            qb.HavingConditions).2.parameters.length = st.parameters.length + (k1 + k2)
        omega
      · exact Emits.append_inert (Emits.append_inert (Emits.append_inert e6 hOfree hOok)
          hLfree hLok) hFfree hFok

end QB

namespace QB

theorem guardClause_sFree : sFree guardClause := by decide

theorem guardClause_phOk : phOk guardClause.data := by decide

theorem sortedKeys_sFree {m : List (String × GoValue)} (h : ∀ kv ∈ m, sFree kv.1) :
    ∀ k ∈ sortedKeys m, sFree k := by
  intro k hk
  obtain ⟨v, hv⟩ := mem_sortedKeys hk
  exact h (k, v) hv

theorem buildUpdate_spec (qb : QueryBuilder) (st : RState)
    (hsty : qb.PhStyle = PlaceholderStyle.DollarN) (hfree : dollarFree qb) :
    ∃ k, (buildUpdate qb st).2.paramIndex = st.paramIndex + k ∧
      (buildUpdate qb st).2.parameters.length = st.parameters.length + k ∧
      Emits (buildUpdate qb st).1 (st.paramIndex + 1) k := by
  obtain ⟨hTab, _, hConds, _, _, _, _, hRet, _, hUpd, _⟩ := hfree
  have hkeys := sortedKeys_sFree hUpd
  obtain ⟨h1i, h1p, h1e⟩ :=
    setLoop_spec (sortedKeys qb.UpdateData) (lookupD qb.UpdateData) hkeys st
  have e1 : Emits ("UPDATE " ++ qb.Table ++ " SET " ++
      strJoin ", " (setLoop PlaceholderStyle.DollarN (lookupD qb.UpdateData) st
        (sortedKeys qb.UpdateData)).1) (st.paramIndex + 1)
      (sortedKeys qb.UpdateData).length :=
    Emits.prepend_inert
      (sFree_append (sFree_append (by decide : sFree "UPDATE ") hTab)
        (by decide : sFree " SET ")) h1e
  have hRfree : sFree (if qb.ReturningColumns.isEmpty then "" else
      " RETURNING " ++ strJoin ", " qb.ReturningColumns) :=
    sFree_ite _ (by decide : sFree "")
      (sFree_append (by decide) (sFree_strJoin (by decide) hRet))
  have hRok : phOk (if qb.ReturningColumns.isEmpty then "" else
      (" RETURNING " ++ strJoin ", " qb.ReturningColumns) : String).data :=
    phOk_ite _ (show phOk [] from rfl) (phOk_litPre _ _ (by decide) (by decide))
  have h1plen : (setLoop PlaceholderStyle.DollarN (lookupD qb.UpdateData) st
      (sortedKeys qb.UpdateData)).2.parameters.length =
      st.parameters.length + (sortedKeys qb.UpdateData).length := by
    rw [h1p]
    simp
  by_cases hw : ¬qb.Conditions.isEmpty = true
  · have heq : buildUpdate qb st =
        ("UPDATE " ++ qb.Table ++ " SET " ++
          strJoin ", " (setLoop qb.PhStyle (lookupD qb.UpdateData) st
            (sortedKeys qb.UpdateData)).1 ++ " WHERE " ++
          (buildConditionsAux qb.PhStyle
            (setLoop qb.PhStyle (lookupD qb.UpdateData) st
              (sortedKeys qb.UpdateData)).2 true qb.Conditions).1 ++
          (if qb.ReturningColumns.isEmpty then "" else
            " RETURNING " ++ strJoin ", " qb.ReturningColumns),
         (buildConditionsAux qb.PhStyle
            (setLoop qb.PhStyle (lookupD qb.UpdateData) st
              (sortedKeys qb.UpdateData)).2 true qb.Conditions).2) := by
      simp only [buildUpdate, if_pos hw]
    rw [heq, hsty]
    obtain ⟨k2, h2i, h2p, h2e, _⟩ := conds_spec qb.Conditions
      (setLoop PlaceholderStyle.DollarN (lookupD qb.UpdateData) st
        (sortedKeys qb.UpdateData)).2 true hConds
    have h2e' : Emits (buildConditionsAux PlaceholderStyle.DollarN
        (setLoop PlaceholderStyle.DollarN (lookupD qb.UpdateData) st
          (sortedKeys qb.UpdateData)).2 true qb.Conditions).1
        (st.paramIndex + 1 + (sortedKeys qb.UpdateData).length) k2 := by
      have hx : (setLoop PlaceholderStyle.DollarN (lookupD qb.UpdateData) st
          (sortedKeys qb.UpdateData)).2.paramIndex + 1 =
          st.paramIndex + 1 + (sortedKeys qb.UpdateData).length := by omega
      rw [hx] at h2e
      exact h2e
    have e2 : Emits ("UPDATE " ++ qb.Table ++ " SET " ++
        strJoin ", " (setLoop PlaceholderStyle.DollarN (lookupD qb.UpdateData) st
          (sortedKeys qb.UpdateData)).1 ++ " WHERE " ++
        (buildConditionsAux PlaceholderStyle.DollarN
          (setLoop PlaceholderStyle.DollarN (lookupD qb.UpdateData) st
            (sortedKeys qb.UpdateData)).2 true qb.Conditions).1)
        (st.paramIndex + 1) ((sortedKeys qb.UpdateData).length + k2) := by
      rw [strAppend_assoc]
      exact Emits.append_tok e1
        (Emits.prepend_inert (by decide : sFree " WHERE ") h2e')
        (phOk_litPre _ _ (by decide) (by decide))
    refine ⟨(sortedKeys qb.UpdateData).length + k2, ?_, ?_, ?_⟩
    · show (buildConditionsAux PlaceholderStyle.DollarN
          (setLoop PlaceholderStyle.DollarN (lookupD qb.UpdateData) st
            (sortedKeys qb.UpdateData)).2 true qb.Conditions).2.paramIndex =
        st.paramIndex + ((sortedKeys qb.UpdateData).length + k2)
      omega
    · show (buildConditionsAux PlaceholderStyle.DollarN
          (setLoop PlaceholderStyle.DollarN (lookupD qb.UpdateData) st
            (sortedKeys qb.UpdateData)).2 true qb.Conditions).2.parameters.length =
        st.parameters.length + ((sortedKeys qb.UpdateData).length + k2)
      omega
    · exact Emits.append_inert e2 hRfree hRok
  · by_cases hg : qb.GuardWrites = true
    · have heq : buildUpdate qb st =
          ("UPDATE " ++ qb.Table ++ " SET " ++
            strJoin ", " (setLoop qb.PhStyle (lookupD qb.UpdateData) st
              (sortedKeys qb.UpdateData)).1 ++ guardClause ++
            (if qb.ReturningColumns.isEmpty then "" else
              " RETURNING " ++ strJoin ", " qb.ReturningColumns),
           (setLoop qb.PhStyle (lookupD qb.UpdateData) st
              (sortedKeys qb.UpdateData)).2) := by
        simp only [buildUpdate, if_neg hw, if_pos hg]
      rw [heq, hsty]
      refine ⟨(sortedKeys qb.UpdateData).length, h1i, h1plen, ?_⟩
      exact Emits.append_inert (Emits.append_inert e1 guardClause_sFree guardClause_phOk)
        hRfree hRok
    · have heq : buildUpdate qb st =
          ("UPDATE " ++ qb.Table ++ " SET " ++
            strJoin ", " (setLoop qb.PhStyle (lookupD qb.UpdateData) st
              (sortedKeys qb.UpdateData)).1 ++
            (if qb.ReturningColumns.isEmpty then "" else
              " RETURNING " ++ strJoin ", " qb.ReturningColumns),
           (setLoop qb.PhStyle (lookupD qb.UpdateData) st
              (sortedKeys qb.UpdateData)).2) := by
        simp only [buildUpdate, if_neg hw, if_neg hg]
      rw [heq, hsty]
      refine ⟨(sortedKeys qb.UpdateData).length, h1i, h1plen, ?_⟩
      exact Emits.append_inert e1 hRfree hRok

theorem buildDelete_spec (qb : QueryBuilder) (st : RState)
    (hsty : qb.PhStyle = PlaceholderStyle.DollarN) (hfree : dollarFree qb) :
    ∃ k, (buildDelete qb st).2.paramIndex = st.paramIndex + k ∧
      (buildDelete qb st).2.parameters.length = st.parameters.length + k ∧
      Emits (buildDelete qb st).1 (st.paramIndex + 1) k := by
  obtain ⟨hTab, _, hConds, _, _, _, _, hRet, _, _, _⟩ := hfree
  have hHead : sFree ("DELETE FROM " ++ qb.Table) :=
    sFree_append (by decide : sFree "DELETE FROM ") hTab
  have hRfree : sFree (if qb.ReturningColumns.isEmpty then "" else
      " RETURNING " ++ strJoin ", " qb.ReturningColumns) :=
    sFree_ite _ (by decide : sFree "")
      (sFree_append (by decide) (sFree_strJoin (by decide) hRet))
  have hRok : phOk (if qb.ReturningColumns.isEmpty then "" else
      (" RETURNING " ++ strJoin ", " qb.ReturningColumns) : String).data :=
    phOk_ite _ (show phOk [] from rfl) (phOk_litPre _ _ (by decide) (by decide))
  by_cases hw : ¬qb.Conditions.isEmpty = true
  · have heq : buildDelete qb st =
        ("DELETE FROM " ++ qb.Table ++ " WHERE " ++
          (buildConditionsAux qb.PhStyle st true qb.Conditions).1 ++
          (if qb.ReturningColumns.isEmpty then "" else
            " RETURNING " ++ strJoin ", " qb.ReturningColumns),
         (buildConditionsAux qb.PhStyle st true qb.Conditions).2) := by
      simp only [buildDelete, if_pos hw]
    rw [heq, hsty]
    obtain ⟨k2, h2i, h2p, h2e, _⟩ := conds_spec qb.Conditions st true hConds
    have e2 : Emits ("DELETE FROM " ++ qb.Table ++ " WHERE " ++
        (buildConditionsAux PlaceholderStyle.DollarN st true qb.Conditions).1)
        (st.paramIndex + 1) k2 := by
      rw [strAppend_assoc]
      exact Emits.prepend_inert hHead
        (Emits.prepend_inert (by decide : sFree " WHERE ") h2e)
    exact ⟨k2, h2i, h2p, Emits.append_inert e2 hRfree hRok⟩
  · by_cases hg : qb.GuardWrites = true
    · have heq : buildDelete qb st =
          ("DELETE FROM " ++ qb.Table ++ guardClause ++
            (if qb.ReturningColumns.isEmpty then "" else
              " RETURNING " ++ strJoin ", " qb.ReturningColumns), st) := by
        simp only [buildDelete, if_neg hw, if_pos hg]
      rw [heq]
      refine ⟨0, rfl, by simp, ?_⟩
      exact Emits.of_noDollar
        (sFree_append (sFree_append hHead guardClause_sFree) hRfree) _
    · have heq : buildDelete qb st =
          ("DELETE FROM " ++ qb.Table ++
            (if qb.ReturningColumns.isEmpty then "" else
              " RETURNING " ++ strJoin ", " qb.ReturningColumns), st) := by
        simp only [buildDelete, if_neg hw, if_neg hg]
      rw [heq]
      refine ⟨0, rfl, by simp, ?_⟩
      exact Emits.of_noDollar (sFree_append hHead hRfree) _

end QB

namespace QB

theorem buildInsert_spec (qb : QueryBuilder) (st : RState)
    (hsty : qb.PhStyle = PlaceholderStyle.DollarN) (hfree : dollarFree qb) :
    ∃ k, (buildInsert qb st).2.paramIndex = st.paramIndex + k ∧
      (buildInsert qb st).2.parameters.length = st.parameters.length + k ∧
      Emits (buildInsert qb st).1 (st.paramIndex + 1) k := by
  obtain ⟨hTab, _, _, _, _, _, _, hRet, hIns, _, hConf⟩ := hfree
  have hRfree : sFree (if qb.ReturningColumns.isEmpty then "" else
      " RETURNING " ++ strJoin ", " qb.ReturningColumns) :=
    sFree_ite _ (by decide : sFree "")
      (sFree_append (by decide) (sFree_strJoin (by decide) hRet))
  have hRok : phOk (if qb.ReturningColumns.isEmpty then "" else
      (" RETURNING " ++ strJoin ", " qb.ReturningColumns) : String).data :=
    phOk_ite _ (show phOk [] from rfl) (phOk_litPre _ _ (by decide) (by decide))
  by_cases hie : qb.InsertData.isEmpty = true
  · have heq : buildInsert qb st =
        ("INSERT INTO " ++ qb.Table ++ " DEFAULT VALUES" ++ (renderOnConflict qb st).1 ++
          (if qb.ReturningColumns.isEmpty then "" else
            " RETURNING " ++ strJoin ", " qb.ReturningColumns),
         (renderOnConflict qb st).2) := by
      simp only [buildInsert, if_pos hie, if_pos hsty]
    rw [heq]
    obtain ⟨n, hci, hcp, hce, hcok⟩ := renderOnConflict_spec qb st hsty hConf
    have e1 : Emits ("INSERT INTO " ++ qb.Table ++ " DEFAULT VALUES" ++
        (renderOnConflict qb st).1) (st.paramIndex + 1) n :=
      Emits.prepend_inert
        (sFree_append (sFree_append (by decide : sFree "INSERT INTO ") hTab)
          (by decide : sFree " DEFAULT VALUES")) hce
    exact ⟨n, hci, hcp, Emits.append_inert e1 hRfree hRok⟩
  · have heq : buildInsert qb st =
        ("INSERT INTO " ++ qb.Table ++ " (" ++ strJoin ", " (sortedKeys qb.InsertData) ++
          ") VALUES (" ++
          strJoin ", " (bindAll qb.PhStyle st
            ((sortedKeys qb.InsertData).map (lookupD qb.InsertData))).1 ++ ")" ++
          (renderOnConflict qb (bindAll qb.PhStyle st
            ((sortedKeys qb.InsertData).map (lookupD qb.InsertData))).2).1 ++
          (if qb.PhStyle = PlaceholderStyle.DollarN ∧ ¬qb.ReturningColumns.isEmpty then
            " RETURNING " ++ strJoin ", " qb.ReturningColumns
           else ""),
         (renderOnConflict qb (bindAll qb.PhStyle st
            ((sortedKeys qb.InsertData).map (lookupD qb.InsertData))).2).2) := by
      simp only [buildInsert, if_neg hie]
    rw [heq, hsty]
    have hkeysf : ∀ k ∈ sortedKeys qb.InsertData, sFree k := sortedKeys_sFree hIns
    obtain ⟨h1i, h1p, h1l, h1e⟩ :=
      bindAll_spec ((sortedKeys qb.InsertData).map (lookupD qb.InsertData)) st
    have hvlen : ((sortedKeys qb.InsertData).map (lookupD qb.InsertData)).length =
        (sortedKeys qb.InsertData).length := by simp
    have e1 : Emits ("INSERT INTO " ++ qb.Table ++ " (" ++
        strJoin ", " (sortedKeys qb.InsertData) ++ ") VALUES (" ++
        strJoin ", " (bindAll PlaceholderStyle.DollarN st
          ((sortedKeys qb.InsertData).map (lookupD qb.InsertData))).1 ++ ")")
        (st.paramIndex + 1)
        ((sortedKeys qb.InsertData).map (lookupD qb.InsertData)).length := by
      refine Emits.append_inert (Emits.prepend_inert ?_ h1e) (by decide) (by decide)
      exact sFree_append (sFree_append (sFree_append (sFree_append
        (by decide : sFree "INSERT INTO ") hTab) (by decide : sFree " ("))
        (sFree_strJoin (by decide) hkeysf)) (by decide : sFree ") VALUES (")
    obtain ⟨n, hci, hcp, hce, hcok⟩ := renderOnConflict_spec qb
      (bindAll PlaceholderStyle.DollarN st
        ((sortedKeys qb.InsertData).map (lookupD qb.InsertData))).2 hsty hConf
    have hce' : Emits (renderOnConflict qb (bindAll PlaceholderStyle.DollarN st
        ((sortedKeys qb.InsertData).map (lookupD qb.InsertData))).2).1
        (st.paramIndex + 1 +
          ((sortedKeys qb.InsertData).map (lookupD qb.InsertData)).length) n := by
      have hx : (bindAll PlaceholderStyle.DollarN st
          ((sortedKeys qb.InsertData).map (lookupD qb.InsertData))).2.paramIndex + 1 =
          st.paramIndex + 1 +
            ((sortedKeys qb.InsertData).map (lookupD qb.InsertData)).length := by omega
      rw [hx] at hce
      exact hce
    have e2 := Emits.append_tok e1 hce' hcok
    have hR2free : sFree (if PlaceholderStyle.DollarN = PlaceholderStyle.DollarN ∧
        ¬qb.ReturningColumns.isEmpty then
        " RETURNING " ++ strJoin ", " qb.ReturningColumns else "") :=
      sFree_ite _ (sFree_append (by decide) (sFree_strJoin (by decide) hRet))
        (by decide : sFree "")
    have hR2ok : phOk (if PlaceholderStyle.DollarN = PlaceholderStyle.DollarN ∧
        ¬qb.ReturningColumns.isEmpty then
        (" RETURNING " ++ strJoin ", " qb.ReturningColumns) else ("" : String)).data :=
      phOk_ite _ (phOk_litPre _ _ (by decide) (by decide)) (show phOk [] from rfl)
    have hplen : (bindAll PlaceholderStyle.DollarN st
        ((sortedKeys qb.InsertData).map (lookupD qb.InsertData))).2.parameters.length =
        st.parameters.length +
          ((sortedKeys qb.InsertData).map (lookupD qb.InsertData)).length := by
      rw [h1p]
      simp
    refine ⟨((sortedKeys qb.InsertData).map (lookupD qb.InsertData)).length + n,
      ?_, ?_, ?_⟩
    · show (renderOnConflict qb (bindAll PlaceholderStyle.DollarN st
          ((sortedKeys qb.InsertData).map (lookupD qb.InsertData))).2).2.paramIndex = _
      omega
    · show (renderOnConflict qb (bindAll PlaceholderStyle.DollarN st
          ((sortedKeys qb.InsertData).map (lookupD qb.InsertData))).2).2.parameters.length
        = _
      omega
    · exact Emits.append_inert e2 hR2free hR2ok

end QB

namespace QB

/-- Placeholder/parameter alignment for DollarN: the `$`-tokens of the
rendered SQL are exactly `1..N` in order, `N` the parameter count. -/
theorem dollarN_alignment (qb : QueryBuilder)
    (hsty : qb.PhStyle = PlaceholderStyle.DollarN) (hfree : dollarFree qb) :
    phTokens (Build qb).1 = tokensFrom 1 (Build qb).2.length := by
  show phTokens (BuildSt qb).1 = tokensFrom 1 (BuildSt qb).2.parameters.length
  by_cases h0 : qb.QueryType = SELECTq
  · have heq : BuildSt qb = buildSelect qb ⟨0, []⟩ := by simp [BuildSt, h0]
    obtain ⟨k, _, hp, he⟩ := buildSelect_spec qb ⟨0, []⟩ hsty hfree
    rw [heq]
    have hl : (buildSelect qb ⟨0, []⟩).2.parameters.length = k := by simpa using hp
    rw [hl]
    exact Emits.to_phTokens he
  · by_cases h1 : qb.QueryType = INSERTq
    · have heq : BuildSt qb = buildInsert qb ⟨0, []⟩ := by
        simp [BuildSt, h0, h1, SELECTq, INSERTq]
      obtain ⟨k, _, hp, he⟩ := buildInsert_spec qb ⟨0, []⟩ hsty hfree
      rw [heq]
      have hl : (buildInsert qb ⟨0, []⟩).2.parameters.length = k := by simpa using hp
      rw [hl]
      exact Emits.to_phTokens he
    · by_cases h2 : qb.QueryType = UPDATEq
      · have heq : BuildSt qb = buildUpdate qb ⟨0, []⟩ := by
          simp [BuildSt, h0, h1, h2, SELECTq, INSERTq, UPDATEq]
        obtain ⟨k, _, hp, he⟩ := buildUpdate_spec qb ⟨0, []⟩ hsty hfree
        rw [heq]
        have hl : (buildUpdate qb ⟨0, []⟩).2.parameters.length = k := by simpa using hp
        rw [hl]
        exact Emits.to_phTokens he
      · by_cases h3 : qb.QueryType = DELETEq
        · have heq : BuildSt qb = buildDelete qb ⟨0, []⟩ := by
            simp [BuildSt, h0, h1, h2, h3, SELECTq, INSERTq, UPDATEq, DELETEq]
          obtain ⟨k, _, hp, he⟩ := buildDelete_spec qb ⟨0, []⟩ hsty hfree
          rw [heq]
          have hl : (buildDelete qb ⟨0, []⟩).2.parameters.length = k := by simpa using hp
          rw [hl]
          exact Emits.to_phTokens he
        · have heq : BuildSt qb = ("", ⟨0, []⟩) := by simp [BuildSt, h0, h1, h2, h3]
          rw [heq]
          rfl

end QB

namespace QB

/-- The string contains no `?` character. -/
def qmFree (s : String) : Prop := ∀ c ∈ s.data, c ≠ '?'

instance (s : String) : Decidable (qmFree s) := by
  unfold qmFree
  infer_instance

/-- Number of `?` characters in a string. -/
def countQ (s : String) : Nat := s.data.count '?'

theorem countQ_append (s t : String) : countQ (s ++ t) = countQ s + countQ t := by
  unfold countQ
  rw [strData_append, List.count_append]

theorem countQ_eq_zero {s : String} (h : qmFree s) : countQ s = 0 := by
  unfold countQ
  rw [List.count_eq_zero]
  intro hm
  exact h '?' hm rfl

theorem qmFree_append {s t : String} (hs : qmFree s) (ht : qmFree t) : qmFree (s ++ t) := by
  intro c hc
  rw [strData_append] at hc
  rcases List.mem_append.mp hc with h | h
  · exact hs c h
  · exact ht c h

theorem qmFree_strJoin {sep : String} (hsep : qmFree sep) :
    ∀ {parts : List String}, (∀ p ∈ parts, qmFree p) → qmFree (strJoin sep parts) := by
  intro parts
  induction parts with
  | nil => intro _; exact (by decide : qmFree "")
  | cons x rest ih =>
    intro h
    cases rest with
    | nil => exact h x (by simp)
    | cons y ys =>
      exact qmFree_append (qmFree_append (h x (by simp)) hsep)
        (ih (fun p hp => h p (by simp [hp])))

theorem opText_qmFree (op : Operator) : qmFree (opText op) := by
  cases op <;> decide

theorem natToStr_qmFree (n : Nat) : qmFree (natToStr n) :=
  fun c hc => isDigit_ne_qmark (natToStr_digits n c hc)

theorem intToStr_qmFree (i : Int) : qmFree (intToStr i) := by
  unfold intToStr
  by_cases h : i < 0
  · simp only [if_pos h]
    intro c hc
    rw [strData_append] at hc
    rcases List.mem_append.mp hc with hc | hc
    · simp only [show ("-" : String).data = ['-'] from rfl, List.mem_singleton] at hc
      subst hc
      decide
    · exact natToStr_qmFree _ c hc
  · simp only [if_neg h]
    exact natToStr_qmFree _

theorem qmFree_ite (c : Prop) [Decidable c] {a b : String} (ha : qmFree a)
    (hb : qmFree b) : qmFree (if c then a else b) := by
  by_cases h : c
  · simpa [h] using ha
  · simpa [h] using hb

/-- Conditions whose column and combinator texts contain no `?`. -/
def condsQmFree (l : List Condition) : Prop :=
  ∀ c ∈ l, qmFree c.Column ∧ qmFree c.Logic

theorem qm_bindAll (vs : List GoValue) : ∀ st : RState,
    bindAll PlaceholderStyle.QuestionMark st vs =
      (List.replicate vs.length "?", ⟨st.paramIndex, st.parameters ++ vs⟩) := by
  induction vs with
  | nil => intro st; simp [bindAll]
  | cons v rest ih =>
    intro st
    simp only [bindAll, placeholder, pushParam]
    rw [ih ⟨st.paramIndex, st.parameters ++ [v]⟩]
    simp [List.replicate_succ, List.append_assoc]

theorem countQ_replicate (n : Nat) : countQ (strJoin ", " (List.replicate n "?")) = n := by
  induction n with
  | zero => decide
  | succ m ih =>
    cases m with
    | zero => decide
    | succ m' =>
      have hstep : strJoin ", " (List.replicate (m' + 1 + 1) "?") =
          "?" ++ ", " ++ strJoin ", " (List.replicate (m' + 1) "?") := rfl
      rw [hstep, countQ_append, countQ_append, ih]
      have hq : countQ "?" = 1 := by decide
      have hc : countQ ", " = 0 := by decide
      omega

theorem qm_condFragment (c : Condition) (st : RState)
    (hcol : qmFree c.Column) :
    ∃ k, (condFragment PlaceholderStyle.QuestionMark st c).2.paramIndex = st.paramIndex ∧
      (condFragment PlaceholderStyle.QuestionMark st c).2.parameters.length =
        st.parameters.length + k ∧
      countQ (condFragment PlaceholderStyle.QuestionMark st c).1 = k := by
  obtain ⟨col, op, val, logic⟩ := c
  simp only [qmFree] at hcol
  have hdefault : ∀ opS : String, qmFree opS →
      countQ (col ++ " " ++ opS ++ " " ++ "?") = 1 := by
    intro opS hop
    simp only [countQ_append, countQ_eq_zero hcol, countQ_eq_zero hop]
    decide
  have hinlike : ∀ (opS : String), qmFree opS → ∀ vs : List GoValue,
      countQ (col ++ " " ++ opS ++ " (" ++
          strJoin ", " (bindAll PlaceholderStyle.QuestionMark st vs).1 ++ ")") =
        vs.length := by
    intro opS hop vs
    rw [qm_bindAll]
    simp only [countQ_append, countQ_eq_zero hcol, countQ_eq_zero hop, countQ_replicate]
    have h1 : countQ " " = 0 := by decide
    have h2 : countQ " (" = 0 := by decide
    have h3 : countQ ")" = 0 := by decide
    omega
  cases op with
  | NULLOP =>
    have hfrag : condFragment PlaceholderStyle.QuestionMark st
        ⟨col, Operator.NULLOP, val, logic⟩ =
        (col ++ " " ++ opText Operator.NULLOP, st) := rfl
    rw [hfrag]
    refine ⟨0, rfl, by simp, ?_⟩
    rw [countQ_append, countQ_append, countQ_eq_zero hcol]
    decide
  | NOTNULLOP =>
    have hfrag : condFragment PlaceholderStyle.QuestionMark st
        ⟨col, Operator.NOTNULLOP, val, logic⟩ =
        (col ++ " " ++ opText Operator.NOTNULLOP, st) := rfl
    rw [hfrag]
    refine ⟨0, rfl, by simp, ?_⟩
    rw [countQ_append, countQ_append, countQ_eq_zero hcol]
    decide
  | INOP =>
    cases hsv : sliceToInterfaces val with
    | none =>
      have hfrag : condFragment PlaceholderStyle.QuestionMark st
          ⟨col, Operator.INOP, val, logic⟩ = ("(1=0)", st) := by
        simp only [condFragment, hsv]
      rw [hfrag]
      refine ⟨0, rfl, by simp, ?_⟩
      show countQ "(1=0)" = 0
      decide
    | some vs =>
      by_cases hvs : vs.isEmpty
      · have hfrag : condFragment PlaceholderStyle.QuestionMark st
            ⟨col, Operator.INOP, val, logic⟩ = ("(1=0)", st) := by
          simp only [condFragment, hsv, if_pos hvs]
        rw [hfrag]
        refine ⟨0, rfl, by simp, ?_⟩
        show countQ "(1=0)" = 0
        decide
      · have hfrag : condFragment PlaceholderStyle.QuestionMark st
            ⟨col, Operator.INOP, val, logic⟩ =
            (col ++ " " ++ opText Operator.INOP ++ " (" ++
              strJoin ", " (bindAll PlaceholderStyle.QuestionMark st vs).1 ++ ")",
             (bindAll PlaceholderStyle.QuestionMark st vs).2) := by
          simp only [condFragment, hsv, if_neg hvs]
        rw [hfrag, qm_bindAll]
        refine ⟨vs.length, rfl, by simp, ?_⟩
        have := hinlike (opText Operator.INOP) (opText_qmFree Operator.INOP) vs
        rw [qm_bindAll] at this
        exact this
  | NINOP =>
    cases hsv : sliceToInterfaces val with
    | none =>
      have hfrag : condFragment PlaceholderStyle.QuestionMark st
          ⟨col, Operator.NINOP, val, logic⟩ = ("(1=1)", st) := by
        simp only [condFragment, hsv]
      rw [hfrag]
      refine ⟨0, rfl, by simp, ?_⟩
      show countQ "(1=1)" = 0
      decide
    | some vs =>
      by_cases hvs : vs.isEmpty
      · have hfrag : condFragment PlaceholderStyle.QuestionMark st
            ⟨col, Operator.NINOP, val, logic⟩ = ("(1=1)", st) := by
          simp only [condFragment, hsv, if_pos hvs]
        rw [hfrag]
        refine ⟨0, rfl, by simp, ?_⟩
        show countQ "(1=1)" = 0
        decide
      · have hfrag : condFragment PlaceholderStyle.QuestionMark st
            ⟨col, Operator.NINOP, val, logic⟩ =
            (col ++ " " ++ opText Operator.NINOP ++ " (" ++
              strJoin ", " (bindAll PlaceholderStyle.QuestionMark st vs).1 ++ ")",
             (bindAll PlaceholderStyle.QuestionMark st vs).2) := by
          simp only [condFragment, hsv, if_neg hvs]
        rw [hfrag, qm_bindAll]
        refine ⟨vs.length, rfl, by simp, ?_⟩
        have := hinlike (opText Operator.NINOP) (opText_qmFree Operator.NINOP) vs
        rw [qm_bindAll] at this
        exact this
  | EQ =>
    exact ⟨1, rfl, by simp [condFragment, placeholder, pushParam],
      hdefault _ (opText_qmFree Operator.EQ)⟩
  | NEQ =>
    exact ⟨1, rfl, by simp [condFragment, placeholder, pushParam],
      hdefault _ (opText_qmFree Operator.NEQ)⟩
  | GT =>
    exact ⟨1, rfl, by simp [condFragment, placeholder, pushParam],
      hdefault _ (opText_qmFree Operator.GT)⟩
  | GTE =>
    exact ⟨1, rfl, by simp [condFragment, placeholder, pushParam],
      hdefault _ (opText_qmFree Operator.GTE)⟩
  | LT =>
    exact ⟨1, rfl, by simp [condFragment, placeholder, pushParam],
      hdefault _ (opText_qmFree Operator.LT)⟩
  | LTE =>
    exact ⟨1, rfl, by simp [condFragment, placeholder, pushParam],
      hdefault _ (opText_qmFree Operator.LTE)⟩
  | LIKE =>
    exact ⟨1, rfl, by simp [condFragment, placeholder, pushParam],
      hdefault _ (opText_qmFree Operator.LIKE)⟩
  | NOTLIKE =>
    exact ⟨1, rfl, by simp [condFragment, placeholder, pushParam],
      hdefault _ (opText_qmFree Operator.NOTLIKE)⟩

end QB

namespace QB

theorem qm_conds (l : List Condition) : ∀ (st : RState) (first : Bool), condsQmFree l →
    ∃ k, (buildConditionsAux PlaceholderStyle.QuestionMark st first l).2.paramIndex =
        st.paramIndex ∧
      (buildConditionsAux PlaceholderStyle.QuestionMark st first l).2.parameters.length =
        st.parameters.length + k ∧
      countQ (buildConditionsAux PlaceholderStyle.QuestionMark st first l).1 = k := by
  induction l with
  | nil =>
    intro st first _
    refine ⟨0, rfl, by simp [buildConditionsAux], ?_⟩
    show countQ "" = 0
    decide
  | cons c rest ih =>
    intro st first hfree
    have hc := hfree c (by simp)
    have hrest : condsQmFree rest := fun x hx => hfree x (by simp [hx])
    obtain ⟨k1, h1i, h1p, h1c⟩ := qm_condFragment c st hc.1
    obtain ⟨k2, h2i, h2p, h2c⟩ :=
      ih (condFragment PlaceholderStyle.QuestionMark st c).2 false hrest
    rw [buildConditionsAux_cons]
    have hpre : countQ (if first then "" else " " ++ c.Logic ++ " ") = 0 := by
      cases first
      · simp only [Bool.false_eq_true, if_false, countQ_append]
        rw [countQ_eq_zero hc.2]
        decide
      · simp only [if_true]
        decide
    refine ⟨k1 + k2, ?_, ?_, ?_⟩
    · show (buildConditionsAux PlaceholderStyle.QuestionMark
          (condFragment PlaceholderStyle.QuestionMark st c).2 false rest).2.paramIndex =
        st.paramIndex
      omega
    · show (buildConditionsAux PlaceholderStyle.QuestionMark
          (condFragment PlaceholderStyle.QuestionMark st c).2 false
          rest).2.parameters.length = st.parameters.length + (k1 + k2)
      omega
    · show countQ ((if first then "" else " " ++ c.Logic ++ " ") ++
          (condFragment PlaceholderStyle.QuestionMark st c).1 ++
          (buildConditionsAux PlaceholderStyle.QuestionMark
            (condFragment PlaceholderStyle.QuestionMark st c).2 false rest).1) = k1 + k2
      rw [countQ_append, countQ_append, hpre, h1c, h2c]
      omega

theorem countQ_strJoin_parts : ∀ (parts : List String), (∀ p ∈ parts, countQ p = 1) →
    countQ (strJoin ", " parts) = parts.length := by
  intro parts
  induction parts with
  | nil => intro _; decide
  | cons x rest ih =>
    intro h
    cases rest with
    | nil => simpa [strJoin] using h x (by simp)
    | cons y ys =>
      have hx := h x (by simp)
      have hr := ih (fun p hp => h p (by simp [hp]))
      show countQ (x ++ ", " ++ strJoin ", " (y :: ys)) = (x :: y :: ys).length
      rw [countQ_append, countQ_append, hx, hr]
      have hc : countQ ", " = 0 := by decide
      simp only [hc, List.length_cons]
      omega

theorem qm_setLoop_eq (f : String → GoValue) (ks : List String) : ∀ st : RState,
    setLoop PlaceholderStyle.QuestionMark f st ks =
      (ks.map (fun k => k ++ " = " ++ "?"), ⟨st.paramIndex, st.parameters ++ ks.map f⟩) := by
  induction ks with
  | nil => intro st; simp [setLoop]
  | cons k ks ih =>
    intro st
    rw [setLoop_cons]
    simp only [placeholder, pushParam]
    rw [ih ⟨st.paramIndex, st.parameters ++ [f k]⟩]
    simp [List.append_assoc]

theorem qm_conflictLoop_idx (f : String → GoValue) (ks : List String) : ∀ st : RState,
    (conflictLoop PlaceholderStyle.QuestionMark f st ks).2.paramIndex = st.paramIndex := by
  induction ks with
  | nil => intro st; rfl
  | cons k ks ih =>
    intro st
    cases hfk : asRaw (f k) with
    | some r =>
      simp only [conflictLoop, hfk]
      exact ih st
    | none =>
      simp only [conflictLoop, hfk, placeholder, pushParam]
      exact ih _

theorem qm_renderOnConflict (qb : QueryBuilder) (st : RState)
    (hsty : qb.PhStyle = PlaceholderStyle.QuestionMark) :
    renderOnConflict qb st = ("", st) := by
  have h : qb.PhStyle ≠ PlaceholderStyle.DollarN := by
    rw [hsty]
    decide
  simp [renderOnConflict, h]

/-- All caller-supplied texts of the builder contain no `?` character. -/
def qmFreeQB (qb : QueryBuilder) : Prop :=
  qmFree qb.Table ∧
  (∀ c ∈ qb.Columns, qmFree c) ∧
  condsQmFree qb.Conditions ∧
  condsQmFree qb.HavingConditions ∧
  (∀ j ∈ qb.Joins, qmFree j.Table ∧ qmFree j.Condition) ∧
  (∀ g ∈ qb.GroupByColumns, qmFree g) ∧
  (∀ o ∈ qb.OrderByArr, qmFree o.Column) ∧
  (∀ r ∈ qb.ReturningColumns, qmFree r) ∧
  (∀ kv ∈ qb.InsertData, qmFree kv.1) ∧
  (∀ kv ∈ qb.UpdateData, qmFree kv.1)

theorem joinsStr_qmFree (js : List Join)
    (h : ∀ j ∈ js, qmFree j.Table ∧ qmFree j.Condition) : qmFree (joinsStr js) := by
  induction js with
  | nil => exact (by decide : qmFree "")
  | cons j rest ih =>
    have hj := h j (by simp)
    have hr := ih (fun x hx => h x (by simp [hx]))
    exact qmFree_append (qmFree_append (qmFree_append (qmFree_append (qmFree_append
      (qmFree_append (by decide : qmFree " ") (opText_qmFree_like j.JType))
      (by decide : qmFree " ")) hj.1) (by decide : qmFree " ON ")) hj.2) hr
where
  opText_qmFree_like : (j : JoinType) → qmFree (joinTypeText j) := by
    intro j
    cases j <;> decide

theorem orderPart_qmFree (o : OrderBy) (h : qmFree o.Column) : qmFree (orderPart o) := by
  unfold orderPart
  by_cases hd : o.Desc <;> simp only [hd, if_true, if_false, Bool.false_eq_true] <;>
    exact qmFree_append h (by decide)

theorem sortedKeys_qmFree {m : List (String × GoValue)} (h : ∀ kv ∈ m, qmFree kv.1) :
    ∀ k ∈ sortedKeys m, qmFree k := by
  intro k hk
  obtain ⟨v, hv⟩ := mem_sortedKeys hk
  exact h (k, v) hv

end QB

namespace QB

theorem qm_buildSelect (qb : QueryBuilder) (st : RState)
    (hsty : qb.PhStyle = PlaceholderStyle.QuestionMark) (hfree : qmFreeQB qb) :
    ∃ k, (buildSelect qb st).2.paramIndex = st.paramIndex ∧
      (buildSelect qb st).2.parameters.length = st.parameters.length + k ∧
      countQ (buildSelect qb st).1 = k := by
  obtain ⟨hTab, hCols, hConds, hHavs, hJoins, hGroup, hOrd, hRet, _, _⟩ := hfree
  have hA : qmFree ("SELECT " ++ strJoin ", " qb.Columns ++
      (if qb.Table = "" then "" else " FROM " ++ qb.Table) ++ joinsStr qb.Joins) :=
    qmFree_append (qmFree_append (qmFree_append (by decide : qmFree "SELECT ")
      (qmFree_strJoin (by decide) hCols))
      (qmFree_ite _ (by decide : qmFree "") (qmFree_append (by decide) hTab)))
      (joinsStr_qmFree _ hJoins)
  have hG : qmFree (if qb.GroupByColumns.isEmpty then "" else
      " GROUP BY " ++ strJoin ", " qb.GroupByColumns) :=
    qmFree_ite _ (by decide : qmFree "")
      (qmFree_append (by decide) (qmFree_strJoin (by decide) hGroup))
  have hOrdParts : ∀ p ∈ qb.OrderByArr.map orderPart, qmFree p := by
    intro p hp
    obtain ⟨o, ho, hop⟩ := List.mem_map.mp hp
    rw [← hop]
    exact orderPart_qmFree o (hOrd o ho)
  have hO : qmFree (if qb.OrderByArr.isEmpty then "" else
      " ORDER BY " ++ strJoin ", " (qb.OrderByArr.map orderPart)) :=
    qmFree_ite _ (by decide : qmFree "")
      (qmFree_append (by decide) (qmFree_strJoin (by decide) hOrdParts))
  have hL : qmFree (if 0 < qb.LimitInt then " LIMIT " ++ intToStr qb.LimitInt else "") :=
    qmFree_ite _ (qmFree_append (by decide) (intToStr_qmFree _)) (by decide : qmFree "")
  have hF : qmFree (if 0 < qb.OffsetInt then " OFFSET " ++ intToStr qb.OffsetInt
      else "") :=
    qmFree_ite _ (qmFree_append (by decide) (intToStr_qmFree _)) (by decide : qmFree "")
  by_cases hw : qb.Conditions.isEmpty = true
  · by_cases hh : qb.HavingConditions.isEmpty = true
    · have heq : buildSelect qb st =
          ("SELECT " ++ strJoin ", " qb.Columns ++
            (if qb.Table = "" then "" else " FROM " ++ qb.Table) ++ joinsStr qb.Joins ++
            (if qb.GroupByColumns.isEmpty then "" else
              " GROUP BY " ++ strJoin ", " qb.GroupByColumns) ++
            (if qb.OrderByArr.isEmpty then "" else
              " ORDER BY " ++ strJoin ", " (qb.OrderByArr.map orderPart)) ++
            (if 0 < qb.LimitInt then " LIMIT " ++ intToStr qb.LimitInt else "") ++
            (if 0 < qb.OffsetInt then " OFFSET " ++ intToStr qb.OffsetInt else ""), st) := by
        simp only [buildSelect, if_pos hw, if_pos hh]
      rw [heq]
      refine ⟨0, rfl, by simp, ?_⟩
      exact countQ_eq_zero (qmFree_append (qmFree_append (qmFree_append
        (qmFree_append hA hG) hO) hL) hF)
    · have heq : buildSelect qb st =
          ("SELECT " ++ strJoin ", " qb.Columns ++
            (if qb.Table = "" then "" else " FROM " ++ qb.Table) ++ joinsStr qb.Joins ++
            (if qb.GroupByColumns.isEmpty then "" else
              " GROUP BY " ++ strJoin ", " qb.GroupByColumns) ++
            " HAVING " ++
            (buildConditionsAux qb.PhStyle st true qb.HavingConditions).1 ++
            (if qb.OrderByArr.isEmpty then "" else
              " ORDER BY " ++ strJoin ", " (qb.OrderByArr.map orderPart)) ++
            (if 0 < qb.LimitInt then " LIMIT " ++ intToStr qb.LimitInt else "") ++
            (if 0 < qb.OffsetInt then " OFFSET " ++ intToStr qb.OffsetInt else ""),
           (buildConditionsAux qb.PhStyle st true qb.HavingConditions).2) := by
        simp only [buildSelect, if_pos hw, if_neg hh]
      rw [heq, hsty]
      obtain ⟨k2, h2i, h2p, h2c⟩ := qm_conds qb.HavingConditions st true hHavs
      refine ⟨k2, h2i, h2p, ?_⟩
      simp only [countQ_append, h2c,
        countQ_eq_zero (by decide : qmFree "SELECT "),
        countQ_eq_zero (qmFree_strJoin (by decide : qmFree ", ") hCols),
        countQ_eq_zero (qmFree_ite _ (by decide : qmFree "")
          (qmFree_append (by decide : qmFree " FROM ") hTab)),
        countQ_eq_zero (joinsStr_qmFree _ hJoins),
        countQ_eq_zero hG, countQ_eq_zero hO, countQ_eq_zero hL, countQ_eq_zero hF,
        countQ_eq_zero (by decide : qmFree " WHERE "),
        countQ_eq_zero (by decide : qmFree " HAVING ")]
      omega
  · obtain ⟨k1, h1i, h1p, h1c⟩ := qm_conds qb.Conditions st true hConds
    by_cases hh : qb.HavingConditions.isEmpty = true
    · have heq : buildSelect qb st =
          ("SELECT " ++ strJoin ", " qb.Columns ++
            (if qb.Table = "" then "" else " FROM " ++ qb.Table) ++ joinsStr qb.Joins ++
            " WHERE " ++ (buildConditionsAux qb.PhStyle st true qb.Conditions).1 ++
            (if qb.GroupByColumns.isEmpty then "" else
              " GROUP BY " ++ strJoin ", " qb.GroupByColumns) ++
            (if qb.OrderByArr.isEmpty then "" else
              " ORDER BY " ++ strJoin ", " (qb.OrderByArr.map orderPart)) ++
            (if 0 < qb.LimitInt then " LIMIT " ++ intToStr qb.LimitInt else "") ++
            (if 0 < qb.OffsetInt then " OFFSET " ++ intToStr qb.OffsetInt else ""),
           (buildConditionsAux qb.PhStyle st true qb.Conditions).2) := by
        simp only [buildSelect, if_neg hw, if_pos hh]
      rw [heq, hsty]
      refine ⟨k1, h1i, h1p, ?_⟩
      simp only [countQ_append, h1c,
        countQ_eq_zero (by decide : qmFree "SELECT "),
        countQ_eq_zero (qmFree_strJoin (by decide : qmFree ", ") hCols),
        countQ_eq_zero (qmFree_ite _ (by decide : qmFree "")
          (qmFree_append (by decide : qmFree " FROM ") hTab)),
        countQ_eq_zero (joinsStr_qmFree _ hJoins),
        countQ_eq_zero hG, countQ_eq_zero hO, countQ_eq_zero hL, countQ_eq_zero hF,
        countQ_eq_zero (by decide : qmFree " WHERE "),
        countQ_eq_zero (by decide : qmFree " HAVING ")]
      omega
    · have heq : buildSelect qb st =
          ("SELECT " ++ strJoin ", " qb.Columns ++
            (if qb.Table = "" then "" else " FROM " ++ qb.Table) ++ joinsStr qb.Joins ++
            " WHERE " ++ (buildConditionsAux qb.PhStyle st true qb.Conditions).1 ++
            (if qb.GroupByColumns.isEmpty then "" else
              " GROUP BY " ++ strJoin ", " qb.GroupByColumns) ++
            " HAVING " ++
            (buildConditionsAux qb.PhStyle
              (buildConditionsAux qb.PhStyle st true qb.Conditions).2 true
              qb.HavingConditions).1 ++
            (if qb.OrderByArr.isEmpty then "" else
              " ORDER BY " ++ strJoin ", " (qb.OrderByArr.map orderPart)) ++
            (if 0 < qb.LimitInt then " LIMIT " ++ intToStr qb.LimitInt else "") ++
            (if 0 < qb.OffsetInt then " OFFSET " ++ intToStr qb.OffsetInt else ""),
           (buildConditionsAux qb.PhStyle
              (buildConditionsAux qb.PhStyle st true qb.Conditions).2 true
              qb.HavingConditions).2) := by
        simp only [buildSelect, if_neg hw, if_neg hh]
      rw [heq, hsty]
      obtain ⟨k2, h2i, h2p, h2c⟩ := qm_conds qb.HavingConditions
        (buildConditionsAux PlaceholderStyle.QuestionMark st true qb.Conditions).2
        true hHavs
      refine ⟨k1 + k2, ?_, ?_, ?_⟩
      · show (buildConditionsAux PlaceholderStyle.QuestionMark
            (buildConditionsAux PlaceholderStyle.QuestionMark st true qb.Conditions).2
            true qb.HavingConditions).2.paramIndex = st.paramIndex
        omega
      · show (buildConditionsAux PlaceholderStyle.QuestionMark
            (buildConditionsAux PlaceholderStyle.QuestionMark st true qb.Conditions).2
            true qb.HavingConditions).2.parameters.length =
          st.parameters.length + (k1 + k2)
        omega
      · simp only [countQ_append, h1c, h2c,
          countQ_eq_zero (by decide : qmFree "SELECT "),
          countQ_eq_zero (qmFree_strJoin (by decide : qmFree ", ") hCols),
          countQ_eq_zero (qmFree_ite _ (by decide : qmFree "")
            (qmFree_append (by decide : qmFree " FROM ") hTab)),
          countQ_eq_zero (joinsStr_qmFree _ hJoins),
          countQ_eq_zero hG, countQ_eq_zero hO, countQ_eq_zero hL, countQ_eq_zero hF,
          countQ_eq_zero (by decide : qmFree " WHERE "),
          countQ_eq_zero (by decide : qmFree " HAVING ")]
        omega

end QB

namespace QB

theorem qm_buildUpdate (qb : QueryBuilder) (st : RState)
    (hsty : qb.PhStyle = PlaceholderStyle.QuestionMark) (hfree : qmFreeQB qb) :
    ∃ k, (buildUpdate qb st).2.paramIndex = st.paramIndex ∧
      (buildUpdate qb st).2.parameters.length = st.parameters.length + k ∧
      countQ (buildUpdate qb st).1 = k := by
  obtain ⟨hTab, _, hConds, _, _, _, _, hRet, _, hUpd⟩ := hfree
  have hkeys := sortedKeys_qmFree hUpd
  have hsl := qm_setLoop_eq (lookupD qb.UpdateData) (sortedKeys qb.UpdateData) st
  have hparts : ∀ p ∈ (sortedKeys qb.UpdateData).map (fun k => k ++ " = " ++ "?"),
      countQ p = 1 := by
    intro p hp
    obtain ⟨k, hk, hkp⟩ := List.mem_map.mp hp
    rw [← hkp, countQ_append, countQ_append, countQ_eq_zero (hkeys k hk)]
    decide
  have hjoin : countQ (strJoin ", " (setLoop PlaceholderStyle.QuestionMark
      (lookupD qb.UpdateData) st (sortedKeys qb.UpdateData)).1) =
      (sortedKeys qb.UpdateData).length := by
    rw [hsl]
    simp only
    rw [countQ_strJoin_parts _ hparts]
    simp
  have hR : qmFree (if qb.ReturningColumns.isEmpty then "" else
      " RETURNING " ++ strJoin ", " qb.ReturningColumns) :=
    qmFree_ite _ (by decide : qmFree "")
      (qmFree_append (by decide) (qmFree_strJoin (by decide) hRet))
  have hsli : (setLoop PlaceholderStyle.QuestionMark (lookupD qb.UpdateData) st
      (sortedKeys qb.UpdateData)).2.paramIndex = st.paramIndex := by
    rw [hsl]
  have hslp : (setLoop PlaceholderStyle.QuestionMark (lookupD qb.UpdateData) st
      (sortedKeys qb.UpdateData)).2.parameters.length =
      st.parameters.length + (sortedKeys qb.UpdateData).length := by
    rw [hsl]
    simp
  by_cases hw : ¬qb.Conditions.isEmpty = true
  · have heq : buildUpdate qb st =
        ("UPDATE " ++ qb.Table ++ " SET " ++
          strJoin ", " (setLoop qb.PhStyle (lookupD qb.UpdateData) st
            (sortedKeys qb.UpdateData)).1 ++ " WHERE " ++
          (buildConditionsAux qb.PhStyle
            (setLoop qb.PhStyle (lookupD qb.UpdateData) st
              (sortedKeys qb.UpdateData)).2 true qb.Conditions).1 ++
          (if qb.ReturningColumns.isEmpty then "" else
            " RETURNING " ++ strJoin ", " qb.ReturningColumns),
         (buildConditionsAux qb.PhStyle
            (setLoop qb.PhStyle (lookupD qb.UpdateData) st
              (sortedKeys qb.UpdateData)).2 true qb.Conditions).2) := by
      simp only [buildUpdate, if_pos hw]
    rw [heq, hsty]
    obtain ⟨k2, h2i, h2p, h2c⟩ := qm_conds qb.Conditions
      (setLoop PlaceholderStyle.QuestionMark (lookupD qb.UpdateData) st
        (sortedKeys qb.UpdateData)).2 true hConds
    refine ⟨(sortedKeys qb.UpdateData).length + k2, ?_, ?_, ?_⟩
    · show (buildConditionsAux PlaceholderStyle.QuestionMark
          (setLoop PlaceholderStyle.QuestionMark (lookupD qb.UpdateData) st
            (sortedKeys qb.UpdateData)).2 true qb.Conditions).2.paramIndex = st.paramIndex
      omega
    · show (buildConditionsAux PlaceholderStyle.QuestionMark
          (setLoop PlaceholderStyle.QuestionMark (lookupD qb.UpdateData) st
            (sortedKeys qb.UpdateData)).2 true qb.Conditions).2.parameters.length =
        st.parameters.length + ((sortedKeys qb.UpdateData).length + k2)
      omega
    · simp only [countQ_append, h2c, hjoin,
        countQ_eq_zero (by decide : qmFree "UPDATE "), countQ_eq_zero hTab,
        countQ_eq_zero (by decide : qmFree " SET "),
        countQ_eq_zero (by decide : qmFree " WHERE "), countQ_eq_zero hR]
      omega
  · by_cases hg : qb.GuardWrites = true
    · have heq : buildUpdate qb st =
          ("UPDATE " ++ qb.Table ++ " SET " ++
            strJoin ", " (setLoop qb.PhStyle (lookupD qb.UpdateData) st
              (sortedKeys qb.UpdateData)).1 ++ guardClause ++
            (if qb.ReturningColumns.isEmpty then "" else
              " RETURNING " ++ strJoin ", " qb.ReturningColumns),
           (setLoop qb.PhStyle (lookupD qb.UpdateData) st
              (sortedKeys qb.UpdateData)).2) := by
        simp only [buildUpdate, if_neg hw, if_pos hg]
      rw [heq, hsty]
      refine ⟨(sortedKeys qb.UpdateData).length, hsli, hslp, ?_⟩
      simp only [countQ_append, hjoin,
        countQ_eq_zero (by decide : qmFree "UPDATE "), countQ_eq_zero hTab,
        countQ_eq_zero (by decide : qmFree " SET "),
        countQ_eq_zero (by decide : qmFree guardClause), countQ_eq_zero hR]
      omega
    · have heq : buildUpdate qb st =
          ("UPDATE " ++ qb.Table ++ " SET " ++
            strJoin ", " (setLoop qb.PhStyle (lookupD qb.UpdateData) st
              (sortedKeys qb.UpdateData)).1 ++
            (if qb.ReturningColumns.isEmpty then "" else
              " RETURNING " ++ strJoin ", " qb.ReturningColumns),
           (setLoop qb.PhStyle (lookupD qb.UpdateData) st
              (sortedKeys qb.UpdateData)).2) := by
        simp only [buildUpdate, if_neg hw, if_neg hg]
      rw [heq, hsty]
      refine ⟨(sortedKeys qb.UpdateData).length, hsli, hslp, ?_⟩
      simp only [countQ_append, hjoin,
        countQ_eq_zero (by decide : qmFree "UPDATE "), countQ_eq_zero hTab,
        countQ_eq_zero (by decide : qmFree " SET "), countQ_eq_zero hR]
      omega

theorem qm_buildDelete (qb : QueryBuilder) (st : RState)
    (hsty : qb.PhStyle = PlaceholderStyle.QuestionMark) (hfree : qmFreeQB qb) :
    ∃ k, (buildDelete qb st).2.paramIndex = st.paramIndex ∧
      (buildDelete qb st).2.parameters.length = st.parameters.length + k ∧
      countQ (buildDelete qb st).1 = k := by
  obtain ⟨hTab, _, hConds, _, _, _, _, hRet, _, _⟩ := hfree
  have hR : qmFree (if qb.ReturningColumns.isEmpty then "" else
      " RETURNING " ++ strJoin ", " qb.ReturningColumns) :=
    qmFree_ite _ (by decide : qmFree "")
      (qmFree_append (by decide) (qmFree_strJoin (by decide) hRet))
  by_cases hw : ¬qb.Conditions.isEmpty = true
  · have heq : buildDelete qb st =
        ("DELETE FROM " ++ qb.Table ++ " WHERE " ++
          (buildConditionsAux qb.PhStyle st true qb.Conditions).1 ++
          (if qb.ReturningColumns.isEmpty then "" else
            " RETURNING " ++ strJoin ", " qb.ReturningColumns),
         (buildConditionsAux qb.PhStyle st true qb.Conditions).2) := by
      simp only [buildDelete, if_pos hw]
    rw [heq, hsty]
    obtain ⟨k2, h2i, h2p, h2c⟩ := qm_conds qb.Conditions st true hConds
    refine ⟨k2, h2i, h2p, ?_⟩
    simp only [countQ_append, h2c,
      countQ_eq_zero (by decide : qmFree "DELETE FROM "), countQ_eq_zero hTab,
      countQ_eq_zero (by decide : qmFree " WHERE "), countQ_eq_zero hR]
    omega
  · by_cases hg : qb.GuardWrites = true
    · have heq : buildDelete qb st =
          ("DELETE FROM " ++ qb.Table ++ guardClause ++
            (if qb.ReturningColumns.isEmpty then "" else
              " RETURNING " ++ strJoin ", " qb.ReturningColumns), st) := by
        simp only [buildDelete, if_neg hw, if_pos hg]
      rw [heq]
      refine ⟨0, rfl, by simp, ?_⟩
      simp only [countQ_append,
        countQ_eq_zero (by decide : qmFree "DELETE FROM "), countQ_eq_zero hTab,
        countQ_eq_zero (by decide : qmFree guardClause), countQ_eq_zero hR]
    · have heq : buildDelete qb st =
          ("DELETE FROM " ++ qb.Table ++
            (if qb.ReturningColumns.isEmpty then "" else
              " RETURNING " ++ strJoin ", " qb.ReturningColumns), st) := by
        simp only [buildDelete, if_neg hw, if_neg hg]
      rw [heq]
      refine ⟨0, rfl, by simp, ?_⟩
      simp only [countQ_append,
        countQ_eq_zero (by decide : qmFree "DELETE FROM "), countQ_eq_zero hTab,
        countQ_eq_zero hR]

theorem qm_buildInsert (qb : QueryBuilder) (st : RState)
    (hsty : qb.PhStyle = PlaceholderStyle.QuestionMark) (hfree : qmFreeQB qb) :
    ∃ k, (buildInsert qb st).2.paramIndex = st.paramIndex ∧
      (buildInsert qb st).2.parameters.length = st.parameters.length + k ∧
      countQ (buildInsert qb st).1 = k := by
  obtain ⟨hTab, _, _, _, _, _, _, _, hIns, _⟩ := hfree
  have hnd : ¬qb.PhStyle = PlaceholderStyle.DollarN := by
    rw [hsty]
    decide
  by_cases hie : qb.InsertData.isEmpty = true
  · have heq : buildInsert qb st = ("INSERT INTO " ++ qb.Table ++ " () VALUES ()", st) := by
      simp only [buildInsert, if_pos hie, if_neg hnd]
    rw [heq]
    refine ⟨0, rfl, by simp, ?_⟩
    simp only [countQ_append,
      countQ_eq_zero (by decide : qmFree "INSERT INTO "), countQ_eq_zero hTab,
      countQ_eq_zero (by decide : qmFree " () VALUES ()")]
  · have heq : buildInsert qb st =
        ("INSERT INTO " ++ qb.Table ++ " (" ++ strJoin ", " (sortedKeys qb.InsertData) ++
          ") VALUES (" ++
          strJoin ", " (bindAll qb.PhStyle st
            ((sortedKeys qb.InsertData).map (lookupD qb.InsertData))).1 ++ ")" ++
          (renderOnConflict qb (bindAll qb.PhStyle st
            ((sortedKeys qb.InsertData).map (lookupD qb.InsertData))).2).1 ++
          (if qb.PhStyle = PlaceholderStyle.DollarN ∧ ¬qb.ReturningColumns.isEmpty then
            " RETURNING " ++ strJoin ", " qb.ReturningColumns
           else ""),
         (renderOnConflict qb (bindAll qb.PhStyle st
            ((sortedKeys qb.InsertData).map (lookupD qb.InsertData))).2).2) := by
      simp only [buildInsert, if_neg hie]
    rw [heq, hsty]
    have hba := qm_bindAll ((sortedKeys qb.InsertData).map (lookupD qb.InsertData)) st
    have hoc := qm_renderOnConflict qb
      (bindAll PlaceholderStyle.QuestionMark st
        ((sortedKeys qb.InsertData).map (lookupD qb.InsertData))).2 hsty
    have hretz : countQ (if PlaceholderStyle.QuestionMark = PlaceholderStyle.DollarN ∧
        ¬qb.ReturningColumns.isEmpty then
        " RETURNING " ++ strJoin ", " qb.ReturningColumns else "") = 0 := by
      rw [if_neg (by simp)]
      decide
    refine ⟨((sortedKeys qb.InsertData).map (lookupD qb.InsertData)).length, ?_, ?_, ?_⟩
    · show (renderOnConflict qb (bindAll PlaceholderStyle.QuestionMark st
          ((sortedKeys qb.InsertData).map (lookupD qb.InsertData))).2).2.paramIndex = _
      rw [hoc, hba]
    · show (renderOnConflict qb (bindAll PlaceholderStyle.QuestionMark st
          ((sortedKeys qb.InsertData).map (lookupD qb.InsertData))).2).2.parameters.length
        = _
      rw [hoc, hba]
      simp
    · simp only [countQ_append, hretz, hba,
        qm_renderOnConflict qb ⟨st.paramIndex,
          st.parameters ++ List.map (lookupD qb.InsertData) (sortedKeys qb.InsertData)⟩
          hsty,
        countQ_eq_zero (by decide : qmFree "INSERT INTO "), countQ_eq_zero hTab,
        countQ_eq_zero (by decide : qmFree " ("),
        countQ_eq_zero (qmFree_strJoin (by decide : qmFree ", ")
          (sortedKeys_qmFree hIns)),
        countQ_eq_zero (by decide : qmFree ") VALUES ("),
        countQ_eq_zero (by decide : qmFree ")")]
      simp only [countQ_replicate]
      have hz : countQ "" = 0 := by decide
      simp [hz]

theorem qm_alignment (qb : QueryBuilder)
    (hsty : qb.PhStyle = PlaceholderStyle.QuestionMark) (hfree : qmFreeQB qb) :
    countQ (Build qb).1 = (Build qb).2.length ∧ (BuildSt qb).2.paramIndex = 0 := by
  show countQ (BuildSt qb).1 = (BuildSt qb).2.parameters.length ∧
    (BuildSt qb).2.paramIndex = 0
  by_cases h0 : qb.QueryType = SELECTq
  · have heq : BuildSt qb = buildSelect qb ⟨0, []⟩ := by simp [BuildSt, h0]
    obtain ⟨k, hi, hp, hc⟩ := qm_buildSelect qb ⟨0, []⟩ hsty hfree
    rw [heq]
    constructor
    · rw [hc]
      simpa using hp.symm
    · simpa using hi
  · by_cases h1 : qb.QueryType = INSERTq
    · have heq : BuildSt qb = buildInsert qb ⟨0, []⟩ := by
        simp [BuildSt, h0, h1, SELECTq, INSERTq]
      obtain ⟨k, hi, hp, hc⟩ := qm_buildInsert qb ⟨0, []⟩ hsty hfree
      rw [heq]
      constructor
      · rw [hc]
        simpa using hp.symm
      · simpa using hi
    · by_cases h2 : qb.QueryType = UPDATEq
      · have heq : BuildSt qb = buildUpdate qb ⟨0, []⟩ := by
          simp [BuildSt, h0, h1, h2, SELECTq, INSERTq, UPDATEq]
        obtain ⟨k, hi, hp, hc⟩ := qm_buildUpdate qb ⟨0, []⟩ hsty hfree
        rw [heq]
        constructor
        · rw [hc]
          simpa using hp.symm
        · simpa using hi
      · by_cases h3 : qb.QueryType = DELETEq
        · have heq : BuildSt qb = buildDelete qb ⟨0, []⟩ := by
            simp [BuildSt, h0, h1, h2, h3, SELECTq, INSERTq, UPDATEq, DELETEq]
          obtain ⟨k, hi, hp, hc⟩ := qm_buildDelete qb ⟨0, []⟩ hsty hfree
          rw [heq]
          constructor
          · rw [hc]
            simpa using hp.symm
          · simpa using hi
        · have heq : BuildSt qb = ("", ⟨0, []⟩) := by
            simp [BuildSt, h0, h1, h2, h3]
          rw [heq]
          exact ⟨rfl, rfl⟩

end QB

namespace QB

theorem charToNat_inj {a b : Char} (h : a.toNat = b.toNat) : a = b := by
  apply Char.ext
  apply UInt32.ext
  simpa [Char.toNat] using h

theorem strLeAux_total : ∀ as bs : List Char, strLeAux as bs = true ∨ strLeAux bs as = true := by
  intro as
  induction as with
  | nil => intro bs; exact Or.inl rfl
  | cons a as ih =>
    intro bs
    cases bs with
    | nil => exact Or.inr rfl
    | cons b bs =>
      rcases Nat.lt_trichotomy a.toNat b.toNat with h | h | h
      · exact Or.inl (by simp [strLeAux, h])
      · rcases ih bs with h2 | h2
        · refine Or.inl ?_
          simp [strLeAux, h, h2]
        · refine Or.inr ?_
          simp [strLeAux, h.symm, h2]
      · exact Or.inr (by simp [strLeAux, h])

theorem strLeAux_antisymm : ∀ as bs : List Char,
    strLeAux as bs = true → strLeAux bs as = true → as = bs := by
  intro as
  induction as with
  | nil =>
    intro bs _ hba
    cases bs with
    | nil => rfl
    | cons b bs => simp [strLeAux] at hba
  | cons a as ih =>
    intro bs hab hba
    cases bs with
    | nil => simp [strLeAux] at hab
    | cons b bs =>
      simp only [strLeAux] at hab hba
      rcases Nat.lt_trichotomy a.toNat b.toNat with h | h | h
      · rw [if_neg (by omega), if_neg (by omega)] at hba
        exact absurd hba (by simp)
      · have ha : a = b := charToNat_inj h
        subst ha
        rw [if_neg (by omega), if_pos rfl] at hab hba
        rw [ih bs hab hba]
      · rw [if_neg (by omega), if_neg (by omega)] at hab
        exact absurd hab (by simp)

theorem strLeAux_trans : ∀ as bs cs : List Char,
    strLeAux as bs = true → strLeAux bs cs = true → strLeAux as cs = true := by
  intro as
  induction as with
  | nil => intro bs cs _ _; rfl
  | cons a as ih =>
    intro bs cs hab hbc
    cases bs with
    | nil => simp [strLeAux] at hab
    | cons b bs =>
      cases cs with
      | nil => simp [strLeAux] at hbc
      | cons c cs =>
        simp only [strLeAux] at hab hbc ⊢
        rcases Nat.lt_trichotomy a.toNat b.toNat with h1 | h1 | h1
        · rcases Nat.lt_trichotomy b.toNat c.toNat with h2 | h2 | h2
          · rw [if_pos (by omega)]
          · rw [if_pos (by omega)]
          · rw [if_neg (by omega), if_neg (by omega)] at hbc
            exact absurd hbc (by simp)
        · rw [if_neg (by omega), if_pos h1] at hab
          rcases Nat.lt_trichotomy b.toNat c.toNat with h2 | h2 | h2
          · rw [if_pos (by omega)]
          · rw [if_neg (by omega), if_pos h2] at hbc
            rw [if_neg (by omega), if_pos (by omega)]
            exact ih bs cs hab hbc
          · rw [if_neg (by omega), if_neg (by omega)] at hbc
            exact absurd hbc (by simp)
        · rw [if_neg (by omega), if_neg (by omega)] at hab
          exact absurd hab (by simp)

/-- The ordering relation of `sort.Strings`. -/
def strLeR (a b : String) : Prop := strLe a b = true

instance : DecidableRel strLeR := fun a b => by
  unfold strLeR
  infer_instance

instance : IsTotal String strLeR :=
  ⟨fun a b => strLeAux_total a.data b.data⟩

instance : IsTrans String strLeR :=
  ⟨fun a b c => strLeAux_trans a.data b.data c.data⟩

instance : IsAntisymm String strLeR :=
  ⟨fun a b hab hba => by
    cases a with
    | mk d1 =>
      cases b with
      | mk d2 => exact congrArg String.mk (strLeAux_antisymm d1 d2 hab hba)⟩

theorem insertSorted_mem {x : String} {l : List String} {z : String}
    (h : z ∈ insertSorted x l) : z = x ∨ z ∈ l := by
  have := (insertSorted_perm x l).mem_iff.mp h
  simpa using this

theorem insertSorted_sorted (x : String) : ∀ l : List String,
    List.Sorted strLeR l → List.Sorted strLeR (insertSorted x l) := by
  intro l
  induction l with
  | nil => intro _; simp [insertSorted]
  | cons y ys ih =>
    intro hs
    rw [List.sorted_cons] at hs
    by_cases hx : strLe x y
    · simp only [insertSorted, if_pos hx]
      rw [List.sorted_cons]
      refine ⟨?_, ?_⟩
      · intro z hz
        rcases List.mem_cons.mp hz with hz | hz
        · subst hz
          exact hx
        · exact strLeAux_trans x.data y.data z.data hx (hs.1 z hz)
      · rw [List.sorted_cons]
        exact hs
    · simp only [insertSorted, if_neg hx]
      rw [List.sorted_cons]
      refine ⟨?_, ?_⟩
      · intro z hz
        rcases insertSorted_mem hz with hz | hz
        · subst hz
          have htot := strLeAux_total z.data y.data
          rcases htot with h | h
          · exact absurd h hx
          · exact h
        · exact hs.1 z hz
      · exact ih hs.2

theorem sortStrings_sorted (l : List String) : List.Sorted strLeR (sortStrings l) := by
  induction l with
  | nil => simp [sortStrings]
  | cons x xs ih => exact insertSorted_sorted x (sortStrings xs) ih

theorem sortStrings_eq_of_perm {l1 l2 : List String} (h : l1.Perm l2) :
    sortStrings l1 = sortStrings l2 :=
  List.eq_of_perm_of_sorted
    ((sortStrings_perm l1).trans (h.trans (sortStrings_perm l2).symm))
    (sortStrings_sorted l1) (sortStrings_sorted l2)

/-- Two association-list maps with the same key multiset and the same lookup
function: the same key-value content, independent of insertion order. -/
def sameContent (m1 m2 : List (String × GoValue)) : Prop :=
  (m1.map Prod.fst).Perm (m2.map Prod.fst) ∧ ∀ k, lookupD m1 k = lookupD m2 k

theorem sameContent_sortedKeys {m1 m2 : List (String × GoValue)} (h : sameContent m1 m2) :
    sortedKeys m1 = sortedKeys m2 :=
  sortStrings_eq_of_perm h.1

theorem sameContent_lookup {m1 m2 : List (String × GoValue)} (h : sameContent m1 m2) :
    lookupD m1 = lookupD m2 :=
  funext h.2

theorem sameContent_isEmpty {m1 m2 : List (String × GoValue)} (h : sameContent m1 m2) :
    m1.isEmpty = m2.isEmpty := by
  have hlen : m1.length = m2.length := by
    have := h.1.length_eq
    simpa using this
  cases m1 <;> cases m2 <;> simp_all

end QB

namespace QB

/-- The builder with its three column-assignment maps replaced. -/
def withMaps (qb : QueryBuilder) (i2 u2 c2 : List (String × GoValue)) : QueryBuilder :=
  { qb with InsertData := i2, UpdateData := u2, ConflictUpdateSet := c2 }

theorem renderOnConflict_congr (qb : QueryBuilder) (i2 u2 c2 : List (String × GoValue))
    (hC : sameContent qb.ConflictUpdateSet c2) (st : RState) :
    renderOnConflict (withMaps qb i2 u2 c2) st = renderOnConflict qb st := by
  simp only [renderOnConflict, withMaps, ← sameContent_sortedKeys hC,
    ← sameContent_lookup hC, ← sameContent_isEmpty hC]

theorem withMaps_Table (qb : QueryBuilder) (i2 u2 c2 : List (String × GoValue)) :
    (withMaps qb i2 u2 c2).Table = qb.Table := rfl

theorem withMaps_PhStyle (qb : QueryBuilder) (i2 u2 c2 : List (String × GoValue)) :
    (withMaps qb i2 u2 c2).PhStyle = qb.PhStyle := rfl

theorem withMaps_Conditions (qb : QueryBuilder) (i2 u2 c2 : List (String × GoValue)) :
    (withMaps qb i2 u2 c2).Conditions = qb.Conditions := rfl

theorem withMaps_GuardWrites (qb : QueryBuilder) (i2 u2 c2 : List (String × GoValue)) :
    (withMaps qb i2 u2 c2).GuardWrites = qb.GuardWrites := rfl

theorem withMaps_ReturningColumns (qb : QueryBuilder)
    (i2 u2 c2 : List (String × GoValue)) :
    (withMaps qb i2 u2 c2).ReturningColumns = qb.ReturningColumns := rfl

theorem withMaps_InsertData (qb : QueryBuilder) (i2 u2 c2 : List (String × GoValue)) :
    (withMaps qb i2 u2 c2).InsertData = i2 := rfl

theorem withMaps_UpdateData (qb : QueryBuilder) (i2 u2 c2 : List (String × GoValue)) :
    (withMaps qb i2 u2 c2).UpdateData = u2 := rfl

theorem withMaps_QueryType (qb : QueryBuilder) (i2 u2 c2 : List (String × GoValue)) :
    (withMaps qb i2 u2 c2).QueryType = qb.QueryType := rfl

theorem build_map_det (qb : QueryBuilder) (i2 u2 c2 : List (String × GoValue))
    (hI : sameContent qb.InsertData i2) (hU : sameContent qb.UpdateData u2)
    (hC : sameContent qb.ConflictUpdateSet c2) :
    Build (withMaps qb i2 u2 c2) = Build qb := by
  have hsel : ∀ st, buildSelect (withMaps qb i2 u2 c2) st = buildSelect qb st :=
    fun st => rfl
  have hdel : ∀ st, buildDelete (withMaps qb i2 u2 c2) st = buildDelete qb st :=
    fun st => rfl
  have hins : ∀ st, buildInsert (withMaps qb i2 u2 c2) st = buildInsert qb st := by
    intro st
    simp only [buildInsert, withMaps_Table, withMaps_PhStyle, withMaps_InsertData,
      withMaps_ReturningColumns, ← sameContent_sortedKeys hI, ← sameContent_lookup hI,
      ← sameContent_isEmpty hI, renderOnConflict_congr qb i2 u2 c2 hC]
  have hupd : ∀ st, buildUpdate (withMaps qb i2 u2 c2) st = buildUpdate qb st := by
    intro st
    simp only [buildUpdate, withMaps_Table, withMaps_PhStyle, withMaps_UpdateData,
      withMaps_Conditions, withMaps_GuardWrites, withMaps_ReturningColumns,
      ← sameContent_sortedKeys hU, ← sameContent_lookup hU]
  unfold Build BuildSt
  simp only [hsel, hdel, hins, hupd, withMaps_QueryType]

end QB

namespace QB

/-- One call of the builder's public fluent API. -/
inductive Op where
  | withPlaceholders (style : PlaceholderStyle)
  | selectOp (columns : List String)
  | fromTable (table : String)
  | insertOp (table : String)
  | valuesOp (data : List (String × GoValue))
  | setOp (column : String) (value : GoValue)
  | updateOp (table : String)
  | setUpdateOp (column : String) (value : GoValue)
  | deleteOp (table : String)
  | whereOp (column : String) (op : Operator) (value : GoValue)
  | orWhereOp (column : String) (op : Operator) (value : GoValue)
  | whereInOp (column : String) (value : GoValue)
  | whereNotInOp (column : String) (value : GoValue)
  | whereLikeOp (column : String) (pattern : String)
  | whereNotLikeOp (column : String) (pattern : String)
  | whereNullOp (column : String)
  | whereNotNullOp (column : String)
  | joinOp (table condition : String)
  | leftJoinOp (table condition : String)
  | rightJoinOp (table condition : String)
  | groupByOp (columns : List String)
  | havingOp (column : String) (op : Operator) (value : GoValue)
  | orderByOp (column : String)
  | orderByDescOp (column : String)
  | limitOp (n : Int)
  | offsetOp (n : Int)
  | paginateOp (page perPage : Int)
  | returningOp (columns : List String)
  | onConflictOp (columns : List String)
  | onConflictConstraintOp (name : String)
  | onConflictDoNothingOp
  | onConflictSetOp (column : String) (value : GoValue)
  | onConflictSetMapOp (m : List (String × GoValue))
  | safeOp
  | unguardOp
  | resetOp
  | buildOp

/-- Apply one API call to the builder (for `buildOp`, the builder state left
behind by `Build`, i.e. the deferred `Reset`). -/
def applyOp (qb : QueryBuilder) : Op → QueryBuilder
  | .withPlaceholders s => WithPlaceholders qb s
  | .selectOp cols => Select qb cols
  | .fromTable t => From qb t
  | .insertOp t => Insert qb t
  | .valuesOp d => Values qb d
  | .setOp c v => SetIns qb c v
  | .updateOp t => Update qb t
  | .setUpdateOp c v => SetUpdate qb c v
  | .deleteOp t => Delete qb t
  | .whereOp c o v => Where qb c o v
  | .orWhereOp c o v => OrWhere qb c o v
  | .whereInOp c v => WhereIn qb c v
  | .whereNotInOp c v => WhereNotIn qb c v
  | .whereLikeOp c p => WhereLike qb c p
  | .whereNotLikeOp c p => WhereNotLike qb c p
  | .whereNullOp c => WhereNull qb c
  | .whereNotNullOp c => WhereNotNull qb c
  | .joinOp t c => JoinOp qb t c
  | .leftJoinOp t c => LeftJoin qb t c
  | .rightJoinOp t c => RightJoin qb t c
  | .groupByOp cols => GroupBy qb cols
  | .havingOp c o v => Having qb c o v
  | .orderByOp c => OrderByOp qb c
  | .orderByDescOp c => OrderByDesc qb c
  | .limitOp n => Limit qb n
  | .offsetOp n => Offset qb n
  | .paginateOp p pp => Paginate qb p pp
  | .returningOp cols => Returning qb cols
  | .onConflictOp cols => OnConflict qb cols
  | .onConflictConstraintOp n => OnConflictConstraint qb n
  | .onConflictDoNothingOp => OnConflictDoNothing qb
  | .onConflictSetOp c v => OnConflictSet qb c v
  | .onConflictSetMapOp m => OnConflictSetMap qb m
  | .safeOp => Safe qb
  | .unguardOp => Unguard qb
  | .resetOp => Reset qb
  | .buildOp => (BuildStep qb).2

/-- A builder state reachable from `NewQB()` by some sequence of API calls. -/
def Reachable (qb : QueryBuilder) : Prop :=
  ∃ ops : List Op, qb = ops.foldl applyOp NewQB

/-- The conflict-target invariant: column list and constraint name never both
set. -/
def ConflictTargetInv (qb : QueryBuilder) : Prop :=
  qb.ConflictColumns = [] ∨ qb.ConflictConstraint = ""

theorem applyOp_conflictInv (qb : QueryBuilder) (op : Op)
    (h : ConflictTargetInv qb) : ConflictTargetInv (applyOp qb op) := by
  cases op with
  | onConflictOp cols => exact Or.inr rfl
  | onConflictConstraintOp n => exact Or.inl rfl
  | deleteOp t => exact Or.inl rfl
  | resetOp => exact Or.inl rfl
  | buildOp => exact Or.inl rfl
  | selectOp cols =>
    unfold ConflictTargetInv at h ⊢
    by_cases hc : cols.isEmpty
    · by_cases hcc : (({ qb with QueryType := SELECTq } : QueryBuilder)).Columns.isEmpty
      · simpa [applyOp, Select, hc, hcc] using h
      · simpa [applyOp, Select, hc, hcc] using h
    · simpa [applyOp, Select, hc] using h
  | onConflictSetMapOp m =>
    unfold ConflictTargetInv at h ⊢
    have haux : ∀ (l : List (String × GoValue)) (b : QueryBuilder),
        (b.ConflictColumns = [] ∨ b.ConflictConstraint = "") →
        ((l.foldl (fun b kv => OnConflictSet b kv.1 kv.2) b).ConflictColumns = [] ∨
          (l.foldl (fun b kv => OnConflictSet b kv.1 kv.2) b).ConflictConstraint = "") := by
      intro l
      induction l with
      | nil => intro b hb; exact hb
      | cons kv rest ih =>
        intro b hb
        exact ih _ (by simpa [OnConflictSet] using hb)
    exact haux m qb h
  | returningOp cols =>
    unfold ConflictTargetInv at h ⊢
    by_cases hc : cols.isEmpty
    · simpa [applyOp, Returning, hc] using h
    · simpa [applyOp, Returning, hc] using h
  | _ =>
    first
    | simpa [applyOp, WithPlaceholders, From, Insert, Values, SetIns, Update, SetUpdate,
        Where, OrWhere, WhereIn, WhereNotIn, WhereLike, WhereNotLike, WhereNull,
        WhereNotNull, JoinOp, LeftJoin, RightJoin, GroupBy, Having, OrderByOp,
        OrderByDesc, Limit, Offset, Paginate, Returning, OnConflictDoNothing,
        OnConflictSet, Safe, Unguard] using h

theorem reachable_conflictInv (qb : QueryBuilder) (h : Reachable qb) :
    ConflictTargetInv qb := by
  obtain ⟨ops, hops⟩ := h
  subst hops
  have haux : ∀ (l : List Op) (b : QueryBuilder), ConflictTargetInv b →
      ConflictTargetInv (l.foldl applyOp b) := by
    intro l
    induction l with
    | nil => intro b hb; exact hb
    | cons op rest ih =>
      intro b hb
      exact ih _ (applyOp_conflictInv b op hb)
  exact haux ops NewQB (Or.inl rfl)

end QB

namespace QB

/-- A string appended with the empty string is unchanged. -/
theorem strAppend_empty (s : String) : s ++ "" = s := by
  apply String.ext
  simp only [strData_append]
  simp

/-- The ` RETURNING col1, col2, ...` suffix of a rendered write statement
(empty when no returning columns are configured). -/
def returningClause (qb : QueryBuilder) : String :=
  if qb.ReturningColumns.isEmpty then ""
  else " RETURNING " ++ strJoin ", " qb.ReturningColumns

/-- `placeholder` never touches the accumulated parameter list. -/
theorem placeholder_params (style : PlaceholderStyle) (st : RState) :
    (placeholder style st).2.parameters = st.parameters := by
  cases style <;> rfl

/-- For either placeholder style, the IN-list loop appends exactly its values
to the parameter list, emitting one placeholder text per value. -/
theorem bindAll_params (style : PlaceholderStyle) (vs : List GoValue) :
    ∀ st : RState, (bindAll style st vs).2.parameters = st.parameters ++ vs ∧
      (bindAll style st vs).1.length = vs.length := by
  induction vs with
  | nil => intro st; exact ⟨by simp [bindAll], rfl⟩
  | cons v rest ih =>
    intro st
    have hstep : bindAll style st (v :: rest) =
        ((placeholder style st).1 ::
          (bindAll style (pushParam (placeholder style st).2 v) rest).1,
         (bindAll style (pushParam (placeholder style st).2 v) rest).2) := by
      simp [bindAll]
    obtain ⟨hp, hl⟩ := ih (pushParam (placeholder style st).2 v)
    rw [hstep]
    refine ⟨?_, by simp [hl]⟩
    rw [hp]
    simp [pushParam, placeholder_params]

instance (l : List Condition) : Decidable (condsFree l) := by
  unfold condsFree
  infer_instance

instance (m : List (String × GoValue)) : Decidable (mapFree m) := by
  unfold mapFree
  infer_instance

instance (qb : QueryBuilder) : Decidable (conflictFree qb) := by
  unfold conflictFree
  infer_instance

instance (qb : QueryBuilder) : Decidable (dollarFree qb) := by
  unfold dollarFree
  infer_instance

instance (l : List Condition) : Decidable (condsQmFree l) := by
  unfold condsQmFree
  infer_instance

instance (qb : QueryBuilder) : Decidable (qmFreeQB qb) := by
  unfold qmFreeQB
  infer_instance

/-- An unconditioned UPDATE renders SET, then the guard clause when the write
guard is on, then the RETURNING suffix. -/
theorem buildUpdate_noconds (qb : QueryBuilder) (hconds : qb.Conditions = [])
    (st : RState) :
    buildUpdate qb st =
      (("UPDATE " ++ qb.Table ++ " SET " ++
          strJoin ", "
            (setLoop qb.PhStyle (lookupD qb.UpdateData) st (sortedKeys qb.UpdateData)).1 ++
          (if qb.GuardWrites then guardClause else "")) ++ returningClause qb,
       (setLoop qb.PhStyle (lookupD qb.UpdateData) st (sortedKeys qb.UpdateData)).2) := by
  unfold buildUpdate returningClause
  rw [hconds]
  by_cases hg : qb.GuardWrites
  · simp [hg]
  · simp [hg, strAppend_empty]

/-- An unconditioned DELETE renders the table, then the guard clause when the
write guard is on, then the RETURNING suffix; the state is untouched. -/
theorem buildDelete_noconds (qb : QueryBuilder) (hconds : qb.Conditions = [])
    (st : RState) :
    buildDelete qb st =
      (("DELETE FROM " ++ qb.Table ++
          (if qb.GuardWrites then guardClause else "")) ++ returningClause qb, st) := by
  unfold buildDelete returningClause
  rw [hconds]
  by_cases hg : qb.GuardWrites
  · simp [hg]
  · simp [hg, strAppend_empty]

/-- A builder whose statement kind is UPDATE dispatches to `buildUpdate`. -/
theorem buildSt_update (qb : QueryBuilder) (h : qb.QueryType = UPDATEq) :
    BuildSt qb = buildUpdate qb ⟨0, []⟩ := by
  unfold BuildSt
  simp [h, SELECTq, INSERTq, UPDATEq]

/-- A builder whose statement kind is DELETE dispatches to `buildDelete`. -/
theorem buildSt_delete (qb : QueryBuilder) (h : qb.QueryType = DELETEq) :
    BuildSt qb = buildDelete qb ⟨0, []⟩ := by
  unfold BuildSt
  simp [h, SELECTq, INSERTq, UPDATEq, DELETEq]

end QB

namespace QB

/-- C3 (corrected): for an UPDATE or DELETE render with an empty predicate
list, the guarded render is the unguarded, RETURNING-free render followed by
the guard clause (whose exact text is `guardClause`, with the source typo
`mising` and trailing ` */` spacing, not the spelling the specification
quotes) and then the RETURNING suffix; disabling the guard drops exactly the
guard clause and emits no WHERE at all; the bound parameters are unaffected
by the guard; and the deferred reset re-enables the guard for the next
statement. -/
theorem C3_guard_amended (qb : QueryBuilder) (hconds : qb.Conditions = [])
    (hk : qb.QueryType = UPDATEq ∨ qb.QueryType = DELETEq) :
    (Build { qb with GuardWrites := true }).1 =
      (Build { qb with GuardWrites := false, ReturningColumns := [] }).1 ++
        guardClause ++ returningClause qb ∧
    (Build { qb with GuardWrites := false }).1 =
      (Build { qb with GuardWrites := false, ReturningColumns := [] }).1 ++
        returningClause qb ∧
    (Build { qb with GuardWrites := true }).2 =
      (Build { qb with GuardWrites := false }).2 ∧
    (BuildStep qb).2.GuardWrites = true := by
  rcases hk with hu | hd
  · have e1 := buildUpdate_noconds { qb with GuardWrites := true } hconds ⟨0, []⟩
    have e2 := buildUpdate_noconds { qb with GuardWrites := false } hconds ⟨0, []⟩
    have e3 := buildUpdate_noconds
      { qb with GuardWrites := false, ReturningColumns := [] } hconds ⟨0, []⟩
    have b1 := buildSt_update { qb with GuardWrites := true } hu
    have b2 := buildSt_update { qb with GuardWrites := false } hu
    have b3 := buildSt_update { qb with GuardWrites := false, ReturningColumns := [] } hu
    refine ⟨?_, ?_, ?_, rfl⟩
    · simp only [Build, b1, b3, e1, e3]
      simp [returningClause, strAppend_empty, strAppend_assoc]
    · simp only [Build, b2, b3, e2, e3]
      simp [returningClause, strAppend_empty, strAppend_assoc]
    · simp only [Build, b1, b2, e1, e2]
  · have e1 := buildDelete_noconds { qb with GuardWrites := true } hconds ⟨0, []⟩
    have e2 := buildDelete_noconds { qb with GuardWrites := false } hconds ⟨0, []⟩
    have e3 := buildDelete_noconds
      { qb with GuardWrites := false, ReturningColumns := [] } hconds ⟨0, []⟩
    have b1 := buildSt_delete { qb with GuardWrites := true } hd
    have b2 := buildSt_delete { qb with GuardWrites := false } hd
    have b3 := buildSt_delete { qb with GuardWrites := false, ReturningColumns := [] } hd
    refine ⟨?_, ?_, ?_, rfl⟩
    · simp only [Build, b1, b3, e1, e3]
      simp [returningClause, strAppend_empty, strAppend_assoc]
    · simp only [Build, b2, b3, e2, e3]
      simp [returningClause, strAppend_empty, strAppend_assoc]
    · simp only [Build, b1, b2, e1, e2]

/-- The guard clause the specification quotes (spelled `missing`, no space
before `*/`) is not what an unconditioned guarded UPDATE appends: the render
of `Update("users").SetUpdate("role","admin").Build()` differs from the
unguarded render followed by the quoted text, and the actually appended text
is `guardClause` with the `mising` typo. -/
theorem C3_counterexample :
    (Build (SetUpdate (Update NewQB "users") "role" (GoValue.vStr "admin"))).1 =
      "UPDATE users SET role = $1 WHERE 1=0 /*guarded: mising WHERE */" ∧
    (Build (SetUpdate (Update NewQB "users") "role" (GoValue.vStr "admin"))).1 ≠
      (Build (Unguard (SetUpdate (Update NewQB "users") "role"
          (GoValue.vStr "admin")))).1 ++ " WHERE 1=0 /*guarded: missing WHERE*/" :=
  ⟨rfl, by decide⟩

/-- Closed instance of `C3_guard_amended` at a concrete unconditioned UPDATE. -/
theorem C3_guard_witness :
    (Build { SetUpdate (Update NewQB "users") "role" (GoValue.vStr "admin") with
        GuardWrites := true }).1 =
      (Build { SetUpdate (Update NewQB "users") "role" (GoValue.vStr "admin") with
          GuardWrites := false, ReturningColumns := [] }).1 ++
        guardClause ++
        returningClause (SetUpdate (Update NewQB "users") "role" (GoValue.vStr "admin")) :=
  (C3_guard_amended (SetUpdate (Update NewQB "users") "role" (GoValue.vStr "admin"))
    rfl (Or.inl rfl)).1

end QB

namespace QB

/-- C1 (corrected): the claimed `$1..$N` alignment fails for arbitrary
builder configurations, because caller-supplied text is spliced into the SQL
verbatim: selecting the column text `$0` yields a render whose left-to-right
placeholder tokens are `$0, $1`, not `$1`. -/
theorem C1_counterexample :
    (Build (Where (From (Select NewQB ["$0"]) "t") "a" Operator.EQ
        (GoValue.vInt 1))).1 = "SELECT $0 FROM t WHERE a = $1" ∧
    phTokens (Build (Where (From (Select NewQB ["$0"]) "t") "a" Operator.EQ
        (GoValue.vInt 1))).1 ≠
      tokensFrom 1 (Build (Where (From (Select NewQB ["$0"]) "t") "a" Operator.EQ
        (GoValue.vInt 1))).2.length :=
  ⟨rfl, by decide⟩

/-- C1 (amended): under the DollarN placeholder style, for every builder
whose caller-supplied strings (table, columns, condition columns and
combinators, join texts, group-by, order-by and returning columns,
assignment-map keys, conflict target and raw conflict expressions) contain no
`$` character, the `$`-digit tokens of the returned SQL text read left to
right are exactly `$1, $2, ..., $N` with `N` the length of the returned
parameter list. -/
theorem C1_dollar_alignment (qb : QueryBuilder)
    (hsty : qb.PhStyle = PlaceholderStyle.DollarN) (hfree : dollarFree qb) :
    phTokens (Build qb).1 = tokensFrom 1 (Build qb).2.length :=
  dollarN_alignment qb hsty hfree

/-- Closed instance of `C1_dollar_alignment` at a concrete two-parameter
query. -/
theorem C1_alignment_witness :
    phTokens (Build (Where (Where (From (Select NewQB ["id", "name"]) "users")
        "age" Operator.GTE (GoValue.vInt 18)) "city" Operator.EQ
        (GoValue.vStr "x"))).1 =
      tokensFrom 1 (Build (Where (Where (From (Select NewQB ["id", "name"]) "users")
        "age" Operator.GTE (GoValue.vInt 18)) "city" Operator.EQ
        (GoValue.vStr "x"))).2.length :=
  C1_dollar_alignment _ rfl (by decide)

/-- C5 (corrected): the statement starters do not clear prior per-statement
state: `Insert` and `Update` after a `Returning` call keep the configured
returning columns, and `Insert` after a `Limit` call keeps the limit. -/
theorem C5_counterexample :
    (Insert (Returning NewQB ["id"]) "users").ReturningColumns = ["id"] ∧
    (Update (Returning NewQB ["id"]) "users").ReturningColumns = ["id"] ∧
    (Insert (Limit NewQB 5) "users").LimitInt = 5 ∧
    (["id"] : List String) ≠ [] :=
  ⟨rfl, rfl, rfl, by decide⟩

/-- C5 (amended): only `Delete` performs a full reset before setting kind and
table; `Insert` and `Update` merely set the kind and table and empty their
own payload map, `Select` only sets the kind and the column list, and the
full clearing of per-statement state happens in the deferred `Reset` of
`Build` (which preserves the placeholder style and re-enables the write
guard). -/
theorem C5_starter_state (qb : QueryBuilder) (t : String) (cols : List String) :
    Insert qb t = { qb with QueryType := INSERTq, Table := t, InsertData := [] } ∧
    Update qb t = { qb with QueryType := UPDATEq, Table := t, UpdateData := [] } ∧
    Delete qb t = { Reset qb with QueryType := DELETEq, Table := t } ∧
    Reset qb = { zeroQB with PhStyle := qb.PhStyle, GuardWrites := true } ∧
    (BuildStep qb).2 = Reset qb ∧
    Select qb cols =
      (if cols.isEmpty then
        (if qb.Columns.isEmpty then
          { qb with QueryType := SELECTq, Columns := ["*"] }
         else { qb with QueryType := SELECTq })
       else { qb with QueryType := SELECTq, Columns := cols }) :=
  ⟨rfl, rfl, rfl, rfl, rfl, rfl⟩

/-- C6 (corrected): the zero value of the statement-kind enumeration is
SELECT, so a fresh builder renders `SELECT `, not the empty string; only the
out-of-range kinds fall through to the empty render. -/
theorem C6_counterexample :
    NewQB.QueryType = SELECTq ∧ Build NewQB = ("SELECT ", []) ∧
    ("SELECT " : String) ≠ "" :=
  ⟨rfl, rfl, by decide⟩

/-- C6 (amended): `Build` on a builder whose statement kind is none of the
four enumerated kinds returns the empty SQL string and an empty parameter
list. -/
theorem C6_unknown_kind (qb : QueryBuilder) (h0 : qb.QueryType ≠ SELECTq)
    (h1 : qb.QueryType ≠ INSERTq) (h2 : qb.QueryType ≠ UPDATEq)
    (h3 : qb.QueryType ≠ DELETEq) : Build qb = ("", []) := by
  unfold Build BuildSt
  simp [h0, h1, h2, h3]

/-- Closed instance of `C6_unknown_kind` at statement kind 7. -/
theorem C6_unknown_witness : Build { NewQB with QueryType := 7 } = ("", []) :=
  C6_unknown_kind _ (by decide) (by decide) (by decide) (by decide)

end QB

namespace QB

/-- C2 (confirmed): for an IN or NOT IN condition, the bound value is coerced
by `sliceToInterfaces`: a list expands to its elements, a byte blob becomes a
single scalar item, anything else coerces to nothing; a failed or empty
coercion renders the literal `(1=0)` for IN and `(1=1)` for NOT IN with no
parameters bound and no state change; a non-empty coercion renders column,
operator and one parenthesised placeholder per element, appending exactly the
elements, in order, to the parameter list. -/
theorem C2_in_coercion (style : PlaceholderStyle) (st : RState) (c : Condition)
    (h : c.Op = Operator.INOP ∨ c.Op = Operator.NINOP) :
    (∀ vs, sliceToInterfaces (GoValue.vList vs) = some vs) ∧
    (∀ bs, sliceToInterfaces (GoValue.vBytes bs) = some [GoValue.vBytes bs]) ∧
    (∀ v, (∀ vs, v ≠ GoValue.vList vs) → (∀ bs, v ≠ GoValue.vBytes bs) →
      sliceToInterfaces v = none) ∧
    (sliceToInterfaces c.Value = none →
      condFragment style st c =
        ((if c.Op = Operator.INOP then "(1=0)" else "(1=1)"), st)) ∧
    (∀ vs, sliceToInterfaces c.Value = some vs → vs = [] →
      condFragment style st c =
        ((if c.Op = Operator.INOP then "(1=0)" else "(1=1)"), st)) ∧
    (∀ vs, sliceToInterfaces c.Value = some vs → vs ≠ [] →
      condFragment style st c =
        (c.Column ++ " " ++ opText c.Op ++ " (" ++
          strJoin ", " (bindAll style st vs).1 ++ ")", (bindAll style st vs).2) ∧
      (bindAll style st vs).2.parameters = st.parameters ++ vs ∧
      (bindAll style st vs).1.length = vs.length) := by
  obtain ⟨col, op, val, logic⟩ := c
  refine ⟨fun vs => rfl, fun bs => rfl, ?_, ?_, ?_, ?_⟩
  · intro v hvl hvb
    cases v with
    | vList vs => exact absurd rfl (hvl vs)
    | vBytes bs => exact absurd rfl (hvb bs)
    | _ => rfl
  · intro hsv
    simp only at hsv
    rcases h with h | h <;> simp only at h <;> subst h <;>
      simp [condFragment, hsv]
  · intro vs hsv hnil
    subst hnil
    simp only at hsv
    rcases h with h | h <;> simp only at h <;> subst h <;>
      simp [condFragment, hsv]
  · intro vs hsv hne
    have hie : vs.isEmpty = false := by
      cases vs with
      | nil => exact absurd rfl hne
      | cons _ _ => rfl
    simp only at hsv
    refine ⟨?_, (bindAll_params style vs st).1, (bindAll_params style vs st).2⟩
    rcases h with h | h <;> simp only at h <;> subst h <;>
      simp [condFragment, hsv, hie]

/-- Closed instances of `C2_in_coercion`: empty IN renders `(1=0)`, a
non-list NOT IN value renders `(1=1)`, and a byte blob coerces to a single
item. -/
theorem C2_in_witness :
    condFragment PlaceholderStyle.DollarN ⟨0, []⟩
      ⟨"status", Operator.INOP, GoValue.vList [], "AND"⟩ = ("(1=0)", ⟨0, []⟩) ∧
    condFragment PlaceholderStyle.DollarN ⟨0, []⟩
      ⟨"roles", Operator.NINOP, GoValue.vInt 5, "AND"⟩ = ("(1=1)", ⟨0, []⟩) ∧
    sliceToInterfaces (GoValue.vBytes [1, 2]) = some [GoValue.vBytes [1, 2]] := by
  refine ⟨?_, ?_, ?_⟩
  · exact (C2_in_coercion PlaceholderStyle.DollarN ⟨0, []⟩
      ⟨"status", Operator.INOP, GoValue.vList [], "AND"⟩ (Or.inl rfl)).2.2.2.2.1 [] rfl rfl
  · exact (C2_in_coercion PlaceholderStyle.DollarN ⟨0, []⟩
      ⟨"roles", Operator.NINOP, GoValue.vInt 5, "AND"⟩ (Or.inr rfl)).2.2.2.1 rfl
  · exact (C2_in_coercion PlaceholderStyle.DollarN ⟨0, []⟩
      ⟨"x", Operator.INOP, GoValue.vNull, "AND"⟩ (Or.inl rfl)).2.1 [1, 2]

/-- C7 (confirmed): an INSERT whose payload map is empty renders
`INSERT INTO <table> () VALUES ()` with no parameters under QuestionMark
(ignoring ON CONFLICT and RETURNING), and
`INSERT INTO <table> DEFAULT VALUES` plus the ON CONFLICT clause and the
RETURNING suffix under DollarN; in particular `Insert("users").Build()` with
nothing else configured yields exactly `INSERT INTO users DEFAULT VALUES`
with no parameters. -/
theorem C7_empty_insert (qb : QueryBuilder) (hq : qb.QueryType = INSERTq)
    (hie : qb.InsertData = []) :
    (qb.PhStyle = PlaceholderStyle.QuestionMark →
      Build qb = ("INSERT INTO " ++ qb.Table ++ " () VALUES ()", [])) ∧
    (qb.PhStyle = PlaceholderStyle.DollarN →
      Build qb = ("INSERT INTO " ++ qb.Table ++ " DEFAULT VALUES" ++
          (renderOnConflict qb ⟨0, []⟩).1 ++ returningClause qb,
        (renderOnConflict qb ⟨0, []⟩).2.parameters)) ∧
    Build (Insert NewQB "users") = ("INSERT INTO users DEFAULT VALUES", []) := by
  have hb : BuildSt qb = buildInsert qb ⟨0, []⟩ := by
    unfold BuildSt
    simp [hq, SELECTq, INSERTq]
  refine ⟨?_, ?_, rfl⟩
  · intro hsty
    simp only [Build, hb]
    simp [buildInsert, hie, hsty, returningClause]
  · intro hsty
    simp only [Build, hb]
    simp [buildInsert, hie, hsty, returningClause, strAppend_assoc]

/-- Closed instance of `C7_empty_insert` under the QuestionMark style. -/
theorem C7_empty_witness :
    Build (Insert (WithPlaceholders NewQB PlaceholderStyle.QuestionMark) "users") =
      ("INSERT INTO users () VALUES ()", []) :=
  (C7_empty_insert (Insert (WithPlaceholders NewQB PlaceholderStyle.QuestionMark)
    "users") rfl rfl).1 rfl

end QB

namespace QB

/-- C4 (confirmed): rendering is deterministic in the column-assignment maps:
replacing the INSERT payload, UPDATE payload and conflict-update map by maps
with the same key-value content (same key multiset and same lookups, in any
order) leaves `Build` byte-identical in both SQL text and parameter list,
because keys are sorted at render time. -/
theorem C4_map_determinism (qb : QueryBuilder) (i2 u2 c2 : List (String × GoValue))
    (hI : sameContent qb.InsertData i2) (hU : sameContent qb.UpdateData u2)
    (hC : sameContent qb.ConflictUpdateSet c2) :
    Build (withMaps qb i2 u2 c2) = Build qb :=
  build_map_det qb i2 u2 c2 hI hU hC

/-- Closed instance of `C4_map_determinism`: the same INSERT payload given in
the two possible insertion orders renders identically. -/
theorem C4_map_witness :
    Build (withMaps (Values (Insert NewQB "users")
        [("name", GoValue.vStr "Alice"), ("age", GoValue.vInt 30)])
      [("age", GoValue.vInt 30), ("name", GoValue.vStr "Alice")] [] []) =
    Build (Values (Insert NewQB "users")
        [("name", GoValue.vStr "Alice"), ("age", GoValue.vInt 30)]) := by
  apply C4_map_determinism
  · refine ⟨by decide, ?_⟩
    intro k
    by_cases hn : "name" = k
    · by_cases ha : "age" = k
      · exact absurd (ha.trans hn.symm) (by decide)
      · simp [lookupD, hn, ha]
    · by_cases ha : "age" = k
      · simp [lookupD, hn, ha]
      · simp [lookupD, hn, ha]
  · exact ⟨List.Perm.refl _, fun k => rfl⟩
  · exact ⟨List.Perm.refl _, fun k => rfl⟩

/-- C8 (confirmed): under DollarN, the chain
`Insert("users").Values(id:1, name:"A").OnConflict("id")
.OnConflictSet("age",30).OnConflictSet("name", RawExpr("excluded.name"))
.Build()` renders the payload columns in sorted order as `$1, $2`, continues
the shared counter at `$3` for the bound conflict assignment, splices the raw
expression verbatim without binding, and returns parameters `[1, "A", 30]`. -/
theorem C8_conflict_render :
    Build (OnConflictSet (OnConflictSet (OnConflict (Values (Insert NewQB "users")
        [("id", GoValue.vInt 1), ("name", GoValue.vStr "A")]) ["id"])
        "age" (GoValue.vInt 30)) "name" (GoValue.vRaw "excluded.name")) =
      ("INSERT INTO users (id, name) VALUES ($1, $2) ON CONFLICT (id) DO UPDATE SET age = $3, name = excluded.name",
       [GoValue.vInt 1, GoValue.vStr "A", GoValue.vInt 30]) := rfl

/-- C9 (confirmed): in every builder state reachable from `NewQB()` by any
sequence of API calls, the conflict-target column list and the conflict
constraint name are never both set: `OnConflict` clears the constraint name,
`OnConflictConstraint` clears the column list, and no other operation sets
either field. -/
theorem C9_conflict_target (qb : QueryBuilder) (h : Reachable qb) :
    qb.ConflictColumns = [] ∨ qb.ConflictConstraint = "" :=
  reachable_conflictInv qb h

/-- Closed instance of `C9_conflict_target` after setting a column target and
then a constraint target. -/
theorem C9_conflict_witness :
    ([Op.insertOp "users", Op.onConflictOp ["id"],
        Op.onConflictConstraintOp "users_pkey"].foldl applyOp NewQB).ConflictColumns
        = [] ∨
    ([Op.insertOp "users", Op.onConflictOp ["id"],
        Op.onConflictConstraintOp "users_pkey"].foldl applyOp NewQB).ConflictConstraint
        = "" :=
  C9_conflict_target _ ⟨_, rfl⟩

/-- C10 (confirmed): under the QuestionMark style every allocated placeholder
is the single character `?` and the internal counter never advances; for
every builder whose caller-supplied strings are free of `?`, the number of
`?` characters in the returned SQL text equals the length of the returned
parameter list. -/
theorem C10_question_mark (qb : QueryBuilder)
    (hsty : qb.PhStyle = PlaceholderStyle.QuestionMark) (hfree : qmFreeQB qb) :
    (∀ st, placeholder PlaceholderStyle.QuestionMark st = ("?", st)) ∧
    (BuildSt qb).2.paramIndex = 0 ∧
    countQ (Build qb).1 = (Build qb).2.length :=
  ⟨fun _ => rfl, (qm_alignment qb hsty hfree).2, (qm_alignment qb hsty hfree).1⟩

/-- Closed instance of `C10_question_mark` at a concrete one-parameter
QuestionMark query. -/
theorem C10_question_witness :
    (∀ st, placeholder PlaceholderStyle.QuestionMark st = ("?", st)) ∧
    (BuildSt (Where (From (Select (WithPlaceholders NewQB
        PlaceholderStyle.QuestionMark) ["id"]) "t") "x" Operator.EQ
        (GoValue.vInt 1))).2.paramIndex = 0 ∧
    countQ (Build (Where (From (Select (WithPlaceholders NewQB
        PlaceholderStyle.QuestionMark) ["id"]) "t") "x" Operator.EQ
        (GoValue.vInt 1))).1 =
      (Build (Where (From (Select (WithPlaceholders NewQB
        PlaceholderStyle.QuestionMark) ["id"]) "t") "x" Operator.EQ
        (GoValue.vInt 1))).2.length :=
  C10_question_mark _ rfl (by decide)

end QB
